import Mathlib

/-!
Verification development for the SEO analysis pipeline orchestrator
(source: src/vite.config.ts, App component; src/types/pipeline.ts).

The orchestrator is a single-threaded, callback-driven React component.  We
embed its observable state (pipeline stages, activity log, partial-results
accumulator, history list, app state, cancellation flag) as a structure
`AppModel`, and each state-store mutation performed by the source
(`updateStage`, `addLog`, `setPartialResults`, `resetPipeline`, the error
handler, the cancellation handler, the history push) as a constructor of an
inductive `Act` with executable semantics `applyAct`.  The body of
`handleSubmit` is translated into the act list `runActs`, branching on an
oracle `CollabEnv` that supplies each external collaborator's outcome
(crawler, cache, AI analyzers, ranker) and the successive `Date.now()`
readings (as non-negative clock increments, so time is non-decreasing).
`handleCancelAnalysis` becomes the act list `cancelActs`.
-/

namespace SeoOrchestrator

/-- Status of a pipeline stage (source: src/types/pipeline.ts,
`PipelineStageStatus`, the five-way string union). -/
inductive StageStatus
  | pending
  | running
  | complete
  | error
  | skipped
deriving DecidableEq

/-- Activity-log entry kind (source: src/types/pipeline.ts,
`ActivityLogEntry.type`). -/
inductive LogType
  | info
  | success
  | warning
  | error
  | ai
deriving DecidableEq

/-- Opaque payload of the sitewide audit collaborator. -/
abbrev SitewideAnalysis := Nat

/-- Opaque payload of the page-level SEO analysis collaborator. -/
abbrev SeoAnalysisResult := Nat

/-- Opaque payload of the executive-summary collaborator. -/
abbrev ExecutiveSummary := Nat

/-- Opaque payload of one day of the action plan. -/
abbrev DailyActionPlan := Nat

/-- Opaque grounding source returned by the page analyzer. -/
abbrev GroundingSource := Nat

/-- One pipeline stage (source: src/types/pipeline.ts, `PipelineStage`).
Timestamps are clock readings; `progress` is the exact rational percentage
the source computes. -/
structure PipelineStage where
  id : String
  name : String
  description : String
  status : StageStatus
  progress : ℚ
  itemsProcessed : Option Nat := none
  totalItems : Option Nat := none
  currentTask : Option String := none
  startTime : Option Nat := none
  endTime : Option Nat := none
deriving DecidableEq

/-- One activity-log entry (source: src/types/pipeline.ts,
`ActivityLogEntry`). -/
structure ActivityLogEntry where
  timestamp : Nat
  message : String
  ty : LogType
  stage : Option String
deriving DecidableEq

/-- The partial-results accumulator (source: src/types/pipeline.ts,
`PartialResults`); every field optional, all unset by default. -/
structure PartialResults where
  sitewideAnalysis : Option SitewideAnalysis := none
  seoAnalysis : Option SeoAnalysisResult := none
  executiveSummary : Option ExecutiveSummary := none
  actionPlan : Option (List DailyActionPlan) := none
  urlsDiscovered : Option Nat := none
  urlsAnalyzed : Option Nat := none
deriving DecidableEq

/-- Names of the `PartialResults` fields, used by the ghost write log that
records which fields each `setPartialResults` call assigns. -/
inductive PRField
  | urlsDiscovered
  | urlsAnalyzed
  | sitewideAnalysis
  | seoAnalysis
  | actionPlan
  | executiveSummary
deriving DecidableEq

/-- A persisted history record (source: `HistoricalAnalysis` as built at the
two construction sites in handleSubmit; `id` and `date` are time-derived). -/
structure HistoricalAnalysis where
  id : Nat
  date : Nat
  sitemapUrl : String
  competitorSitemaps : List String
  sitewideAnalysis : SitewideAnalysis
  analysis : SeoAnalysisResult
  sources : List GroundingSource
  analysisType : String
  location : String
  actionPlan : List DailyActionPlan
  executiveSummary : ExecutiveSummary
deriving DecidableEq

/-- The `AppState` union of the source (`idle | loading | results | error |
configure_ai`). -/
inductive AppState
  | idle
  | loading
  | results
  | error
  | configureAi
deriving DecidableEq

/-- The `LoadingPhase` union of the source (`crawling | analyzing`). -/
inductive LoadingPhase
  | crawling
  | analyzing
deriving DecidableEq

/-- A crawler progress signal (source: `CrawlProgress` as consumed by the
crawl progress callback: `count`, `total`, `currentSitemap`). -/
structure CrawlProgress where
  count : Nat
  total : Nat
  currentSitemap : Option String := none
deriving DecidableEq

/-- The stage catalog (source: src/types/pipeline.ts,
`PIPELINE_STAGE_DEFINITIONS`): seven descriptors in fixed order. -/
def pipelineStageDefinitions : List (String × String × String) :=
  [("crawl", "Sitemap Discovery",
    "Crawling sitemaps in parallel to extract all page URLs"),
   ("rank", "URL Prioritization",
    "Scoring and ranking URLs by strategic SEO value"),
   ("competitor", "Competitor Intelligence",
    "Analyzing competitor content gaps and strategies"),
   ("technical", "Technical Health Scan",
    "Auditing site architecture, speed, and crawlability"),
   ("content", "Content Analysis",
    "Evaluating on-page SEO factors and content quality"),
   ("actionplan", "Action Plan Generation",
    "Creating prioritized implementation roadmap"),
   ("summary", "Executive Synthesis",
    "Generating 80/20 executive summary with top priorities")]

/-- Fresh stage list used by the initial state and by `resetPipeline`
(source: `PIPELINE_STAGE_DEFINITIONS.map(s => ({...s, status: 'pending',
progress: 0}))`). -/
def initialStages : List PipelineStage :=
  pipelineStageDefinitions.map fun d =>
    { id := d.1
      name := d.2.1
      description := d.2.2
      status := .pending
      progress := 0 }

/-- A partial stage update, mirroring the object literals passed to
`updateStage(id, updates)`; a `none` field is absent from the literal. -/
structure StageUpdate where
  status : Option StageStatus := none
  progress : Option ℚ := none
  itemsProcessed : Option Nat := none
  totalItems : Option Nat := none
  currentTask : Option String := none
  startTime : Option Nat := none
  endTime : Option Nat := none
deriving DecidableEq

/-- Merge a partial update into a stage (source: `{ ...s, ...updates }`). -/
def applyUpdate (st : PipelineStage) (u : StageUpdate) : PipelineStage :=
  { st with
    status := u.status.getD st.status
    progress := u.progress.getD st.progress
    itemsProcessed := match u.itemsProcessed with
      | some v => some v
      | none => st.itemsProcessed
    totalItems := match u.totalItems with
      | some v => some v
      | none => st.totalItems
    currentTask := match u.currentTask with
      | some v => some v
      | none => st.currentTask
    startTime := match u.startTime with
      | some v => some v
      | none => st.startTime
    endTime := match u.endTime with
      | some v => some v
      | none => st.endTime }

/-- `updateStage` of the source: merge `u` into every stage whose id
matches. -/
def updateStage (id : String) (u : StageUpdate)
    (l : List PipelineStage) : List PipelineStage :=
  l.map fun st => if st.id = id then applyUpdate st u else st

/-- The whole observable state of the App component, plus a clock (the next
`Date.now()` reading is `clock + head ticks`), the remaining clock
increments, the persisted copy of the history list, and a ghost log
`prWrites` recording the fields assigned by each `setPartialResults` call. -/
structure AppModel where
  stages : List PipelineStage
  activityLog : List ActivityLogEntry
  partialResults : PartialResults
  analysisStartTime : Nat
  appState : AppState
  errorMsg : Option String
  history : List HistoricalAnalysis
  persisted : List HistoricalAnalysis
  selectedId : Option Nat
  crawlProgress : Option CrawlProgress
  loadingPhase : LoadingPhase
  isCancelling : Bool
  clock : Nat
  ticks : List Nat
  prWrites : List (List PRField)
deriving DecidableEq

/-- The value a `Date.now()` call returns in state `s`: the clock advanced
by the next environment-chosen increment (so time never decreases). -/
def nowOf (s : AppModel) : Nat :=
  s.clock + s.ticks.headD 0

/-- The state after a `Date.now()` call: clock advanced, increment
consumed. -/
def tickState (s : AppModel) : AppModel :=
  { s with clock := nowOf s, ticks := s.ticks.tail }

/-- Everything needed to build a `HistoricalAnalysis` except the time-derived
`id`/`date`, mirroring the record literals in handleSubmit. -/
structure RecordSeed where
  sitemapUrl : String
  competitorSitemaps : List String
  sitewideAnalysis : SitewideAnalysis
  analysis : SeoAnalysisResult
  sources : List GroundingSource
  analysisType : String
  location : String
  actionPlan : List DailyActionPlan
  executiveSummary : ExecutiveSummary
deriving DecidableEq

/-- Build the history record from a seed at time `t`. -/
def mkRecord (t : Nat) (r : RecordSeed) : HistoricalAnalysis :=
  { id := t
    date := t
    sitemapUrl := r.sitemapUrl
    competitorSitemaps := r.competitorSitemaps
    sitewideAnalysis := r.sitewideAnalysis
    analysis := r.analysis
    sources := r.sources
    analysisType := r.analysisType
    location := r.location
    actionPlan := r.actionPlan
    executiveSummary := r.executiveSummary }

/-- One primitive state-store mutation of the source.  Each constructor
corresponds to one mutation site of handleSubmit / handleCancelAnalysis:
stage updates keep the exact field sets of the source's object literals. -/
inductive Act
  /-- `addLog(message, type, stage)`: append a log entry timestamped now. -/
  | logMsg (message : String) (ty : LogType) (stage : Option String)
  /-- `updateStage(id, {status:'running', startTime: Date.now(),
  currentTask})` - the shape shared by every running-transition site. -/
  | stageRun (id : String) (task : String)
  /-- `updateStage(id, {status:'complete', progress:100, endTime:
  Date.now()})` - the shape shared by every complete-transition site. -/
  | stageDone (id : String)
  /-- `updateStage(id, {currentTask: msg})` - progress-message routing. -/
  | stageTask (id : String) (msg : String)
  /-- The crawl progress callback body: `setCrawlProgress(p)` plus
  `updateStage('crawl', {progress, itemsProcessed, totalItems,
  currentTask})` with `progress = total>0 ? (count/total)*100 : 0`. -/
  | crawlTick (p : CrawlProgress)
  /-- `setLoadingPhase(ph)`. -/
  | setPhase (ph : LoadingPhase)
  /-- `setCrawlProgress(p)`. -/
  | setCrawl (p : Option CrawlProgress)
  /-- `setAppState(st)`. -/
  | setAppSt (st : AppState)
  /-- `setError(e)`. -/
  | setErr (e : Option String)
  /-- `setSelectedAnalysisId(i)`. -/
  | setSelected (i : Option Nat)
  /-- `setAnalysisStartTime(Date.now())`. -/
  | setStartTime
  /-- `resetPipeline()`: fresh stages, clear log, clear partial results,
  new start time. -/
  | resetAct
  /-- The `prev.map(s => s.status === 'running' ? {...s, status:'error'} :
  s)` map used by handleCancelAnalysis. -/
  | mapRunErr
  /-- `setIsCancelling(b)`. -/
  | setCancel (b : Bool)
  /-- `setPartialResults(prev => ({...prev, urlsDiscovered: n}))`. -/
  | prDiscovered (n : Nat)
  /-- The cache-hit replacement `setPartialResults({urlsDiscovered,
  sitewideAnalysis, seoAnalysis})` (not a merge). -/
  | prCacheHit (n : Nat) (sw : SitewideAnalysis) (seo : SeoAnalysisResult)
  /-- `setPartialResults(prev => ({...prev, urlsAnalyzed: n}))`. -/
  | prAnalyzed (n : Nat)
  /-- `setPartialResults(prev => ({...prev, sitewideAnalysis, seoAnalysis}))`. -/
  | prFanout (sw : SitewideAnalysis) (seo : SeoAnalysisResult)
  /-- `setPartialResults(prev => ({...prev, actionPlan}))`. -/
  | prPlan (p : List DailyActionPlan)
  /-- `setPartialResults(prev => ({...prev, executiveSummary}))`. -/
  | prSummary (e : ExecutiveSummary)
  /-- Build the record, prepend, truncate to 10, persist, select it
  (source lines building `newAnalysis` and `updatedHistory`). -/
  | pushHistory (r : RecordSeed)
  /-- The catch block of handleSubmit: if not cancelling, set the error
  message, log it, mark running stages error, go to the error app state. -/
  | catchErr (msg : String)
deriving DecidableEq

/-- Executable semantics of one mutation. -/
def applyAct (a : Act) (s : AppModel) : AppModel :=
  match a with
  | .logMsg m ty st =>
      let t := nowOf s
      let s' := tickState s
      { s' with activityLog := s'.activityLog ++ [⟨t, m, ty, st⟩] }
  | .stageRun id task =>
      let t := nowOf s
      let s' := tickState s
      let u : StageUpdate :=
        { status := some .running, startTime := some t, currentTask := some task }
      { s' with stages := updateStage id u s'.stages }
  | .stageDone id =>
      let t := nowOf s
      let s' := tickState s
      let u : StageUpdate :=
        { status := some .complete, progress := some 100, endTime := some t }
      { s' with stages := updateStage id u s'.stages }
  | .stageTask id msg =>
      let u : StageUpdate := { currentTask := some msg }
      { s with stages := updateStage id u s.stages }
  | .crawlTick p =>
      let pct : ℚ := if p.total > 0 then ((p.count : ℚ) / (p.total : ℚ)) * 100 else 0
      let u : StageUpdate :=
        { progress := some pct
          itemsProcessed := some p.count
          totalItems := some p.total
          currentTask := some ("Processing " ++ p.currentSitemap.getD "sitemap" ++ "...") }
      { s with
        crawlProgress := some p
        stages := updateStage "crawl" u s.stages }
  | .setPhase ph => { s with loadingPhase := ph }
  | .setCrawl p => { s with crawlProgress := p }
  | .setAppSt st => { s with appState := st }
  | .setErr e => { s with errorMsg := e }
  | .setSelected i => { s with selectedId := i }
  | .setStartTime =>
      let t := nowOf s
      let s' := tickState s
      { s' with analysisStartTime := t }
  | .resetAct =>
      let t := nowOf s
      let s' := tickState s
      { s' with
        stages := initialStages
        activityLog := []
        partialResults := {}
        prWrites := []
        analysisStartTime := t }
  | .mapRunErr =>
      { s with stages := s.stages.map fun st =>
          if st.status = .running then { st with status := .error } else st }
  | .setCancel b => { s with isCancelling := b }
  | .prDiscovered n =>
      { s with
        partialResults := ({ s.partialResults with urlsDiscovered := some n })
        prWrites := s.prWrites ++ [[.urlsDiscovered]] }
  | .prCacheHit n sw seo =>
      { s with
        partialResults := ({ urlsDiscovered := some n
                             sitewideAnalysis := some sw
                             seoAnalysis := some seo })
        prWrites := s.prWrites ++ [[.urlsDiscovered, .sitewideAnalysis, .seoAnalysis]] }
  | .prAnalyzed n =>
      { s with
        partialResults := ({ s.partialResults with urlsAnalyzed := some n })
        prWrites := s.prWrites ++ [[.urlsAnalyzed]] }
  | .prFanout sw seo =>
      { s with
        partialResults := ({ s.partialResults with
                             sitewideAnalysis := some sw
                             seoAnalysis := some seo })
        prWrites := s.prWrites ++ [[.sitewideAnalysis, .seoAnalysis]] }
  | .prPlan p =>
      { s with
        partialResults := ({ s.partialResults with actionPlan := some p })
        prWrites := s.prWrites ++ [[.actionPlan]] }
  | .prSummary e =>
      { s with
        partialResults := ({ s.partialResults with executiveSummary := some e })
        prWrites := s.prWrites ++ [[.executiveSummary]] }
  | .pushHistory r =>
      let t := nowOf s
      let s' := tickState s
      let newRec := mkRecord t r
      let updated := (newRec :: s'.history).take 10
      { s' with
        history := updated
        persisted := updated
        selectedId := some t }
  | .catchErr msg =>
      if s.isCancelling then s
      else
        let t := nowOf s
        let s' := tickState s
        { s' with
          errorMsg := some msg
          activityLog := s'.activityLog ++
            [⟨t, "Analysis failed: " ++ msg, .error, none⟩]
          stages := s'.stages.map fun st =>
            if st.status = .running then { st with status := .error } else st
          appState := .error }

/-- Run a list of mutations. -/
def execActs (l : List Act) (s : AppModel) : AppModel :=
  l.foldl (fun st a => applyAct a st) s

/-- All intermediate states of a run of mutations, initial state included. -/
def execTrace (l : List Act) (s : AppModel) : List AppModel :=
  l.scanl (fun st a => applyAct a st) s

/-- Do the characters of `l` start with `pat`? (structural helper, so that
concrete runs reduce inside the kernel). -/
def charsStartWith : List Char → List Char → Bool
  | _, [] => true
  | [], _ :: _ => false
  | c :: cs, p :: ps => c = p && charsStartWith cs ps

/-- Does `l` contain `pat` as a contiguous sublist? -/
def charsContain : List Char → List Char → Bool
  | [], pat => pat.isEmpty
  | c :: rest, pat => charsStartWith (c :: rest) pat || charsContain rest pat

/-- Does `s` contain `pat` as a substring (the `.includes(pat)` test of the
progress-message router)? -/
def containsSubstr (s pat : String) : Bool :=
  charsContain s.data pat.data

/-- Lower-case a string character by character (`.toLowerCase()`). -/
def lowerString (s : String) : String :=
  String.mk (s.data.map Char.toLower)

/-- Split a character list at newline characters (`.split('\n')`). -/
def splitOnNl : List Char → List (List Char)
  | [] => [[]]
  | c :: cs =>
    let r := splitOnNl cs
    if c = '\n' then [] :: r
    else
      match r with
      | [] => [[c]]
      | h :: t => (c :: h) :: t

/-- Strip leading and trailing whitespace (`.trim()`). -/
def trimChars (l : List Char) : List Char :=
  ((l.dropWhile Char.isWhitespace).reverse.dropWhile Char.isWhitespace).reverse

/-- Opaque AI-provider configuration. -/
abbrev AiConfig := Nat

/-- A cached analysis as returned by the cache collaborator and consumed at
the cache-hit sites (`cachedAnalysis.sitewide`, `cachedAnalysis.seo`). -/
structure CachedAnalysis where
  sitewide : SitewideAnalysis
  seo : SeoAnalysisResult
deriving DecidableEq

/-- The wizard submission payload, with the fields handleSubmit reads:
`sitemapUrl` (crawled), `url` (cache key and history record),
`competitorSitemaps` (newline-separated raw text), `analysisType`,
`targetLocation`. -/
structure WizardSubmitData where
  sitemapUrl : String
  url : String
  competitorSitemaps : String
  analysisType : String
  targetLocation : String
deriving DecidableEq

/-- A progress message of the fan-out, tagged with the collaborator that
emitted it (the sitewide auditor or the page analyzer); the environment
chooses the interleaving. -/
inductive FanMsg
  | fromAudit (m : String)
  | fromSeo (m : String)
deriving DecidableEq

/-- Outcomes of every external collaborator call of one run, plus the
progress signals each one delivers before resolving.  `sitemapUrlValid`
models whether `new URL(data.sitemapUrl)` succeeds. -/
structure CollabEnv where
  sitemapUrlValid : Bool
  crawlEvents : List CrawlProgress
  crawlResult : Except String (List String)
  cacheGet : Except String (Option CachedAnalysis)
  hitPlanMsgs : List String
  hitPlan : Except String (List DailyActionPlan)
  hitSummary : Except String ExecutiveSummary
  rankFn : List String → List String
  fanMsgs : List FanMsg
  fanout : Except String (SitewideAnalysis × SeoAnalysisResult × List GroundingSource)
  cacheSet : Except String Unit
  planMsgs : List String
  plan : Except String (List DailyActionPlan)
  summary : Except String ExecutiveSummary

/-- `data.competitorSitemaps.split('\n').map(u => u.trim()).filter(Boolean)`. -/
def competitorUrlsOf (d : WizardSubmitData) : List String :=
  (((splitOnNl d.competitorSitemaps.data).map fun cs => String.mk (trimChars cs)).filter
    fun u => u ≠ "")

/-- `MAX_URLS_FOR_ANALYSIS` of the source. -/
def maxUrlsForAnalysis : Nat := 100

/-- Acts of one fan-out progress message: a sitewide-audit message whose
lowercase form contains "competitor" routes to the competitor stage, other
audit messages to the technical stage, page-analysis messages to the
content stage (source: the two progress callbacks of the `Promise.all`). -/
def fanMsgActs (m : FanMsg) : List Act :=
  match m with
  | .fromAudit msg =>
      if containsSubstr (lowerString msg) "competitor" then
        [.stageTask "competitor" msg, .logMsg msg .ai (some "competitor")]
      else
        [.stageTask "technical" msg, .logMsg msg .ai (some "technical")]
  | .fromSeo msg => [.stageTask "content" msg, .logMsg msg .ai (some "content")]

/-- Acts of one action-plan progress message (both action-plan call sites
use the same callback body). -/
def planMsgActs (m : String) : List Act :=
  [.stageTask "actionplan" m, .logMsg m .ai (some "actionplan")]

/-- The error message thrown when the crawl yields zero URLs. -/
def emptyCrawlMsg : String :=
  "Crawl complete, but no URLs were found. Your sitemap might be empty or in a format that could not be parsed."

/-- Acts performed by handleSubmit after validation succeeds and before the
crawler is awaited: reset everything, then start the crawl stage. -/
def startActs : List Act :=
  [.setAppSt .loading, .setPhase .crawling, .setErr none,
   .setSelected none, .setCrawl none, .resetAct, .setStartTime,
   .logMsg "Starting sitemap discovery..." .info (some "crawl"),
   .stageRun "crawl" "Initializing parallel crawler..."]

/-- The miss-path acts after the action-plan collaborator resolves (or
rejects): completion of actionplan, the summary call, and the history
record with the fan-out grounding sources. -/
def planTailActs (d : WizardSubmitData) (env : CollabEnv)
    (sw : SitewideAnalysis) (an : SeoAnalysisResult)
    (srcs : List GroundingSource) : List Act :=
  match env.plan with
  | .error msg => [.catchErr msg]
  | .ok plan =>
    [.stageDone "actionplan",
     .logMsg "Action plan generated successfully" .success (some "actionplan"),
     .prPlan plan,
     .logMsg "Synthesizing executive summary..." .ai (some "summary"),
     .stageRun "summary" "Generating 80/20 analysis..."]
    ++ match env.summary with
       | .error msg => [.catchErr msg]
       | .ok ex =>
         [.stageDone "summary",
          .logMsg "Executive summary complete" .success (some "summary"),
          .prSummary ex,
          .logMsg "Analysis complete! Building final report..." .success none,
          .pushHistory
            { sitemapUrl := d.url
              competitorSitemaps := competitorUrlsOf d
              sitewideAnalysis := sw
              analysis := an
              sources := srcs
              analysisType := d.analysisType
              location := d.targetLocation
              actionPlan := plan
              executiveSummary := ex },
          .setAppSt .results]

/-- The continuation of the miss path after the cache write resolves:
action plan, then executive summary, then the history record. -/
def afterCacheWriteActs (d : WizardSubmitData) (env : CollabEnv)
    (sw : SitewideAnalysis) (an : SeoAnalysisResult)
    (srcs : List GroundingSource) : List Act :=
  [.logMsg "Generating implementation roadmap..." .ai (some "actionplan"),
   .stageRun "actionplan" "Creating daily action items..."]
  ++ env.planMsgs.flatMap planMsgActs
  ++ planTailActs d env sw an srcs

/-- The hit-path acts after the action-plan collaborator resolves (or
rejects): completion of actionplan, the summary call, and the history
record with an empty sources list. -/
def hitTailActs (d : WizardSubmitData) (env : CollabEnv)
    (c : CachedAnalysis) : List Act :=
  match env.hitPlan with
  | .error msg => [.catchErr msg]
  | .ok plan =>
    [.stageDone "actionplan",
     .logMsg "Action plan generated" .success (some "actionplan"),
     .prPlan plan,
     .logMsg "Synthesizing executive summary..." .ai (some "summary"),
     .stageRun "summary" "Creating 80/20 analysis..."]
    ++ match env.hitSummary with
       | .error msg => [.catchErr msg]
       | .ok ex =>
         [.stageDone "summary",
          .logMsg "Executive summary complete" .success (some "summary"),
          .prSummary ex,
          .pushHistory
            { sitemapUrl := d.url
              competitorSitemaps := competitorUrlsOf d
              sitewideAnalysis := c.sitewide
              analysis := c.seo
              sources := []
              analysisType := d.analysisType
              location := d.targetLocation
              actionPlan := plan
              executiveSummary := ex },
          .setAppSt .results]

/-- The cache-hit branch: mark the four skipped-work stages complete,
replace the partial results, then fresh action plan and summary from the
cached payloads; the produced record carries an empty sources list. -/
def cacheHitActs (d : WizardSubmitData) (env : CollabEnv)
    (urls : List String) (c : CachedAnalysis) : List Act :=
  [.logMsg "Cache hit! Using cached analysis..." .success none,
   .stageDone "rank", .stageDone "competitor", .stageDone "technical",
   .stageDone "content",
   .prCacheHit urls.length c.sitewide c.seo,
   .logMsg "Generating fresh action plan from cache..." .ai (some "actionplan"),
   .stageRun "actionplan" "Creating implementation roadmap..."]
  ++ env.hitPlanMsgs.flatMap planMsgActs
  ++ hitTailActs d env c

/-- The cache-miss branch: rank, fan out the three analysis stages, join,
write the cache, then the shared tail. -/
def cacheMissActs (d : WizardSubmitData) (env : CollabEnv)
    (urls : List String) : List Act :=
  let rankedUrls := env.rankFn urls
  let inputUrls := rankedUrls.take maxUrlsForAnalysis
  [.logMsg "No valid cache found, running full analysis..." .info none,
   .logMsg "Prioritizing URLs by SEO value..." .info (some "rank"),
   .stageRun "rank" "Scoring URL importance...",
   .stageDone "rank",
   .logMsg ("Ranked " ++ toString rankedUrls.length ++
     " URLs, analyzing top " ++ toString inputUrls.length) .success (some "rank"),
   .prAnalyzed inputUrls.length,
   .logMsg "Starting parallel AI analysis engines..." .ai none,
   .stageRun "competitor" "Analyzing competitor sitemaps...",
   .stageRun "technical" "Auditing technical health...",
   .stageRun "content" "Evaluating content quality..."]
  ++ env.fanMsgs.flatMap fanMsgActs
  ++ match env.fanout with
     | .error msg => [.catchErr msg]
     | .ok (sw, an, srcs) =>
       [.stageDone "competitor", .stageDone "technical", .stageDone "content",
        .logMsg "Sitewide audit complete" .success (some "technical"),
        .logMsg "Content analysis complete" .success (some "content"),
        .prFanout sw an,
        .logMsg "Caching analysis for future use..." .info none]
       ++ match env.cacheSet with
          | .error msg => [.catchErr msg]
          | .ok _ => afterCacheWriteActs d env sw an srcs

/-- The continuation after the crawler resolves: record the discovery,
fail the run on zero URLs, otherwise query the cache and branch. -/
def afterCrawlActs (d : WizardSubmitData) (env : CollabEnv)
    (urls : List String) : List Act :=
  [.stageDone "crawl",
   .logMsg ("Discovered " ++ toString urls.length ++ " URLs") .success (some "crawl"),
   .prDiscovered urls.length]
  ++ if urls.length = 0 then [.catchErr emptyCrawlMsg]
     else
       [.setPhase .analyzing, .setCrawl none,
        .logMsg "Checking for cached analysis..." .info none]
       ++ match env.cacheGet with
          | .error msg => [.catchErr msg]
          | .ok (some c) => cacheHitActs d env urls c
          | .ok none => cacheMissActs d env urls

/-- All mutations of one handleSubmit invocation, in program order,
determined by the submission data, the AI configuration and the
collaborator outcomes. -/
def runActs (aiConfig : Option AiConfig) (d : WizardSubmitData)
    (env : CollabEnv) : List Act :=
  if d.sitemapUrl = "" then
    [.setErr (some "Please enter your sitemap.xml URL."), .setAppSt .error]
  else
    match aiConfig with
    | none =>
      [.setErr (some "AI Provider is not configured."), .setAppSt .configureAi]
    | some _ =>
      if env.sitemapUrlValid = false then
        [.setErr (some "Please enter a valid sitemap URL (e.g., https://example.com/sitemap.xml)."),
         .setAppSt .error]
      else
        startActs
        ++ env.crawlEvents.map Act.crawlTick
        ++ match env.crawlResult with
           | .error msg => [.catchErr msg]
           | .ok urls => afterCrawlActs d env urls

/-- All mutations of handleCancelAnalysis, in program order: set the
cancelling flag, log a warning, force running stages to error, go idle,
clear the flag, and fully reset the pipeline. -/
def cancelActs : List Act :=
  [.setCancel true,
   .logMsg "Analysis cancelled by user" .warning none,
   .mapRunErr,
   .setAppSt .idle,
   .setCancel false,
   .resetAct]

/-- Final state of one handleSubmit invocation. -/
def handleSubmitRun (aiConfig : Option AiConfig) (d : WizardSubmitData)
    (env : CollabEnv) (s : AppModel) : AppModel :=
  execActs (runActs aiConfig d env) s

/-- Final state of handleCancelAnalysis. -/
def handleCancel (s : AppModel) : AppModel :=
  execActs cancelActs s

/-- The component's initial state (fresh mount, empty history), with a
clock schedule `ts`. -/
def initialModel (ts : List Nat) : AppModel :=
  { stages := initialStages
    activityLog := []
    partialResults := {}
    analysisStartTime := 0
    appState := .idle
    errorMsg := none
    history := []
    persisted := []
    selectedId := none
    crawlProgress := none
    loadingPhase := .crawling
    isCancelling := false
    clock := 0
    ticks := ts
    prWrites := [] }

/-! ### Observation helpers and invariants -/

/-- The stage with the given id (the unique one: stage ids are distinct). -/
def stageBy (s : AppModel) (id : String) : Option PipelineStage :=
  s.stages.find? fun st => st.id = id

/-- The status of the stage with the given id. -/
def statusOf (s : AppModel) (id : String) : Option StageStatus :=
  (stageBy s id).map fun st => st.status

/-- The start time of the stage with the given id. -/
def startOf (s : AppModel) (id : String) : Option Nat :=
  (stageBy s id).bind fun st => st.startTime

/-- The end time of the stage with the given id. -/
def endOf (s : AppModel) (id : String) : Option Nat :=
  (stageBy s id).bind fun st => st.endTime

/-- The progress of the stage with the given id. -/
def progressOf (s : AppModel) (id : String) : Option ℚ :=
  (stageBy s id).map fun st => st.progress

/-- The (id, status) pairs of all stages, in order. -/
def statuses (s : AppModel) : List (String × StageStatus) :=
  s.stages.map fun st => (st.id, st.status)

/-- The seven stage ids, in catalog order. -/
def stageIds : List String :=
  ["crawl", "rank", "competitor", "technical", "content", "actionplan",
   "summary"]

/-- The statuses of a freshly reset pipeline. -/
def pendingStatuses : List (String × StageStatus) :=
  [("crawl", .pending), ("rank", .pending), ("competitor", .pending),
   ("technical", .pending), ("content", .pending), ("actionplan", .pending),
   ("summary", .pending)]

/-- Timing/status invariant of a single stage under clock value `c`:
running stages have a start time, complete stages have an end time, error
stages have a start time, all stored times are at most the clock, and a
complete stage's end time is at least its start time. -/
def StInv (c : Nat) (st : PipelineStage) : Prop :=
  (st.status = .running → st.startTime.isSome) ∧
  (st.status = .complete → st.endTime.isSome) ∧
  (st.status = .error → st.startTime.isSome) ∧
  (∀ a ∈ st.startTime, a ≤ c) ∧
  (∀ b ∈ st.endTime, b ≤ c) ∧
  (st.status = .complete → ∀ a ∈ st.startTime, ∀ b ∈ st.endTime, a ≤ b)

/-- `StInv` for every stage of the model. -/
def ModelInv (s : AppModel) : Prop :=
  ∀ st ∈ s.stages, StInv s.clock st

/-- No stage carries the `skipped` status. -/
def NoSkip (s : AppModel) : Prop :=
  ∀ st ∈ s.stages, st.status ≠ .skipped

/-- Number of ghost-log writes that assign the given field. -/
def writeCount (f : PRField) (w : List (List PRField)) : Nat :=
  (w.flatMap fun l => l).count f

/-- A value stored in some PartialResults field, wrapped so that all six
fields can be observed uniformly. -/
inductive PRVal
  | nat (n : Nat)
  | plan (p : List DailyActionPlan)
deriving DecidableEq

/-- Uniform observation of one PartialResults field. -/
def prField : PRField → PartialResults → Option PRVal
  | .urlsDiscovered, p => p.urlsDiscovered.map PRVal.nat
  | .urlsAnalyzed, p => p.urlsAnalyzed.map PRVal.nat
  | .sitewideAnalysis, p => p.sitewideAnalysis.map PRVal.nat
  | .seoAnalysis, p => p.seoAnalysis.map PRVal.nat
  | .actionPlan, p => p.actionPlan.map PRVal.plan
  | .executiveSummary, p => p.executiveSummary.map PRVal.nat

/-- The possible partial-results write acts of a run that crawled `urls`,
with each payload pinned to the branch data that produces it (used to
classify every act of `runActs`). -/
abbrev PRWriteSpec (env : CollabEnv) (urls : List String) (a : Act) : Prop :=
  a = Act.prDiscovered urls.length ∨
  (∃ c, env.cacheGet = Except.ok (some c) ∧
    a = Act.prCacheHit urls.length c.sitewide c.seo) ∨
  (env.cacheGet = Except.ok none ∧
    a = Act.prAnalyzed ((env.rankFn urls).take maxUrlsForAnalysis).length) ∨
  (∃ sw an srcs, env.cacheGet = Except.ok none ∧
    env.fanout = Except.ok (sw, an, srcs) ∧ a = Act.prFanout sw an) ∨
  (∃ p, a = Act.prPlan p ∧
    ((∃ c, env.cacheGet = Except.ok (some c) ∧ env.hitPlan = Except.ok p) ∨
     (env.cacheGet = Except.ok none ∧ env.plan = Except.ok p))) ∨
  (∃ e, a = Act.prSummary e ∧
    ((∃ c, env.cacheGet = Except.ok (some c) ∧ env.hitSummary = Except.ok e) ∨
     (env.cacheGet = Except.ok none ∧ env.summary = Except.ok e)))

/-! ### Concrete data for witnesses and counterexamples -/

/-- A concrete submission. -/
def dWit : WizardSubmitData :=
  { sitemapUrl := "https://example.com/sitemap.xml"
    url := "https://example.com"
    competitorSitemaps := ""
    analysisType := "global"
    targetLocation := "" }

/-- A concrete clock schedule: thirty one-millisecond steps. -/
def ticks30 : List Nat := List.replicate 30 1

/-- A concrete all-successful cache-miss environment. -/
def envMissWit : CollabEnv :=
  { sitemapUrlValid := true
    crawlEvents := [⟨5, 10, none⟩]
    crawlResult := .ok ["https://example.com/a", "https://example.com/b"]
    cacheGet := .ok none
    hitPlanMsgs := []
    hitPlan := .ok []
    hitSummary := .ok 0
    rankFn := id
    fanMsgs := [.fromAudit "Analyzing competitor gaps", .fromSeo "Scoring pages"]
    fanout := .ok (7, 8, [1, 2])
    cacheSet := .ok ()
    planMsgs := ["Drafting day one"]
    plan := .ok [3]
    summary := .ok 9 }

/-- A concrete all-successful cache-hit environment. -/
def envHitWit : CollabEnv :=
  { envMissWit with
    cacheGet := .ok (some { sitewide := 41, seo := 42 })
    hitPlanMsgs := ["Refreshing plan"]
    hitPlan := .ok [5]
    hitSummary := .ok 6 }

/-- Cache-miss environment whose fan-out rejects. -/
def envFanFailWit : CollabEnv :=
  { envMissWit with fanout := .error "AI provider request failed" }

/-- Cache-miss environment whose cache write rejects. -/
def envCacheSetFailWit : CollabEnv :=
  { envMissWit with cacheSet := .error "cache backend unavailable" }

/-- Environment whose crawl succeeds with zero URLs. -/
def envZeroWit : CollabEnv :=
  { envMissWit with crawlResult := .ok [] }

/-- Environment delivering a crawl progress signal with a positive total
followed by one with a zero total. -/
def envZeroTotalWit : CollabEnv :=
  { envMissWit with crawlEvents := [⟨5, 10, none⟩, ⟨7, 0, none⟩] }

/-- The stale-resolution scenario, step 1: a run is started and the crawl
stage is running with one progress signal delivered; the crawler promise
is still pending. -/
def stalePre : AppModel :=
  execActs (startActs ++ [.crawlTick ⟨3, 9, none⟩]) (initialModel ticks30)

/-- Step 2: the user cancels; handleCancelAnalysis runs to completion,
leaving the fully reset (post-cancellation) state. -/
def staleCancelled : AppModel :=
  handleCancel stalePre

/-- Step 3: the crawler promise, issued before cancellation, now resolves
with one URL; its continuation (the code after the await) executes against
the reset state. -/
def staleLate : AppModel :=
  execActs (afterCrawlActs dWit envMissWit ["https://example.com/a"]) staleCancelled

/-- State just after the first crawl progress signal of the zero-total
scenario (progress 50). -/
def zeroTotalS1 : AppModel :=
  execActs (startActs ++ [.crawlTick ⟨5, 10, none⟩]) (initialModel ticks30)

/-- State after the follow-up signal with total = 0. -/
def zeroTotalS2 : AppModel :=
  applyAct (.crawlTick ⟨7, 0, none⟩) zeroTotalS1

/-- Submission used for the i-th of eleven successive runs. -/
def dOf (i : Nat) : WizardSubmitData :=
  { dWit with url := "https://example.com/" ++ toString i }

/-- Final state after eleven successive successful cache-miss runs from a
fresh mount. -/
def elevenRuns : AppModel :=
  (List.range 11).foldl
    (fun s i => handleSubmitRun (some 0) (dOf i) envMissWit s)
    (initialModel (List.replicate 400 1))

/-! ### Status-level abstraction of the acts -/

/-- Set the status paired with `id`. -/
def setSt (id : String) (v : StageStatus) (l : List (String × StageStatus)) :
    List (String × StageStatus) :=
  l.map fun p => if p.1 = id then (p.1, v) else p

/-- Map every running status to error. -/
def errRunning (l : List (String × StageStatus)) : List (String × StageStatus) :=
  l.map fun p => if p.2 = .running then (p.1, .error) else p

/-- The abstract state tracked by the status-level interpreter: the
cancelling flag, the stage statuses, the app state, and the error
message. -/
structure Abs where
  flag : Bool
  sts : List (String × StageStatus)
  app : AppState
  err : Option String
deriving DecidableEq

/-- Abstraction of a model. -/
def absOf (s : AppModel) : Abs :=
  ⟨s.isCancelling, statuses s, s.appState, s.errorMsg⟩

/-- Effect of one act on the abstract state. -/
def absStep (a : Act) (x : Abs) : Abs :=
  match a with
  | .stageRun id _ => { x with sts := setSt id .running x.sts }
  | .stageDone id => { x with sts := setSt id .complete x.sts }
  | .mapRunErr => { x with sts := errRunning x.sts }
  | .resetAct => { x with sts := pendingStatuses }
  | .setAppSt st => { x with app := st }
  | .setErr e => { x with err := e }
  | .setCancel b => { x with flag := b }
  | .catchErr m =>
      if x.flag then x
      else { x with sts := errRunning x.sts, app := .error, err := some m }
  | _ => x

/-- Run the abstract interpreter over an act list. -/
def absExec (l : List Act) (x : Abs) : Abs :=
  l.foldl (fun y a => absStep a y) x

/-- Acts that leave the abstract state unchanged. -/
def absNeutral : Act → Bool
  | .stageRun _ _ => false
  | .stageDone _ => false
  | .mapRunErr => false
  | .resetAct => false
  | .setAppSt _ => false
  | .setErr _ => false
  | .setCancel _ => false
  | .catchErr _ => false
  | _ => true

/-- Acts whose only stage-status effect is on the crawl stage (used for
the zero-URL scenario, where no later stage may leave pending). -/
def onlyCrawlAct : Act → Bool
  | .stageRun id _ => id == "crawl"
  | .stageDone id => id == "crawl"
  | _ => true

/-- Does the act write the start time of stage `i`? -/
def writesStartOf (a : Act) (i : String) : Bool :=
  match a with
  | .stageRun j _ => j == i
  | .resetAct => true
  | _ => false

/-- Does the act write the end time of stage `i`? -/
def writesEndOf (a : Act) (i : String) : Bool :=
  match a with
  | .stageDone j => j == i
  | .resetAct => true
  | _ => false

/-- Acts that do not touch the history list or its persisted copy. -/
def histNeutral : Act → Bool
  | .pushHistory _ => false
  | _ => true

/-- Acts that touch neither the partial results nor the ghost write log. -/
def prNeutral : Act → Bool
  | .prDiscovered _ => false
  | .prCacheHit _ _ _ => false
  | .prAnalyzed _ => false
  | .prFanout _ _ => false
  | .prPlan _ => false
  | .prSummary _ => false
  | .resetAct => false
  | _ => true

/-- Acts produced by collaborator progress callbacks (log entries, task
texts, crawl progress): they touch no status, time, partial result, or
history. -/
def progressAct : Act → Bool
  | .stageTask _ _ => true
  | .logMsg _ _ _ => true
  | .crawlTick _ => true
  | _ => false

/-- The ghost-log entries an act list appends (empty for non-write acts). -/
def ghostWrites : List Act → List (List PRField)
  | [] => []
  | a :: l =>
    (match a with
     | .prDiscovered _ => [[PRField.urlsDiscovered]]
     | .prCacheHit _ _ _ => [[PRField.urlsDiscovered, .sitewideAnalysis, .seoAnalysis]]
     | .prAnalyzed _ => [[PRField.urlsAnalyzed]]
     | .prFanout _ _ => [[PRField.sitewideAnalysis, .seoAnalysis]]
     | .prPlan _ => [[PRField.actionPlan]]
     | .prSummary _ => [[PRField.executiveSummary]]
     | _ => []) ++ ghostWrites l

/-! ### Generic invariant preservation -/

theorem nowOf_ge (s : AppModel) : s.clock ≤ nowOf s :=
  Nat.le_add_right _ _

theorem stInv_mono {c c' : Nat} {st : PipelineStage} (h : c ≤ c')
    (hs : StInv c st) : StInv c' st := by
  obtain ⟨h1, h2, h3, h4, h5, h6⟩ := hs
  exact ⟨h1, h2, h3, fun a ha => le_trans (h4 a ha) h,
    fun b hb => le_trans (h5 b hb) h, h6⟩

theorem stInv_initial {c : Nat} {st : PipelineStage} (hst : st ∈ initialStages) :
    StInv c st := by
  simp only [initialStages, pipelineStageDefinitions, List.map_cons, List.map_nil,
    List.mem_cons, List.not_mem_nil, or_false] at hst
  rcases hst with h | h | h | h | h | h | h <;> subst h <;>
    exact ⟨by simp, by simp, by simp, by simp, by simp, by simp⟩

theorem modelInv_applyAct (a : Act) (s : AppModel) (h : ModelInv s) :
    ModelInv (applyAct a s) := by
  cases a with
  | logMsg m ty stg =>
      intro x hx
      simp only [applyAct, tickState] at hx ⊢
      exact stInv_mono (nowOf_ge s) (h x hx)
  | stageRun id task =>
      intro x hx
      simp only [applyAct, tickState, updateStage, List.mem_map] at hx ⊢
      obtain ⟨st, hst, rfl⟩ := hx
      by_cases hid : st.id = id
      · obtain ⟨-, -, -, h4, h5, -⟩ := h st hst
        simp only [hid, if_true, applyUpdate, StInv, Option.getD]
        refine ⟨fun _ => rfl, by simp, by simp, ?_, ?_, by simp⟩
        · intro a ha
          simp only [Option.mem_def, Option.some.injEq] at ha
          omega
        · intro b hb
          exact le_trans (h5 b hb) (nowOf_ge s)
      · simp only [hid, if_false]
        exact stInv_mono (nowOf_ge s) (h st hst)
  | stageDone id =>
      intro x hx
      simp only [applyAct, tickState, updateStage, List.mem_map] at hx ⊢
      obtain ⟨st, hst, rfl⟩ := hx
      by_cases hid : st.id = id
      · obtain ⟨-, -, -, h4, h5, -⟩ := h st hst
        simp only [hid, if_true, applyUpdate, StInv, Option.getD]
        refine ⟨by simp, fun _ => rfl, by simp, ?_, ?_, ?_⟩
        · intro a ha
          exact le_trans (h4 a ha) (nowOf_ge s)
        · intro b hb
          simp only [Option.mem_def, Option.some.injEq] at hb
          omega
        · intro _ a ha b hb
          simp only [Option.mem_def, Option.some.injEq] at hb
          have := le_trans (h4 a ha) (nowOf_ge s)
          omega
      · simp only [hid, if_false]
        exact stInv_mono (nowOf_ge s) (h st hst)
  | stageTask id msg =>
      intro x hx
      simp only [applyAct, updateStage, List.mem_map] at hx ⊢
      obtain ⟨st, hst, rfl⟩ := hx
      by_cases hid : st.id = id
      · obtain ⟨h1, h2, h3, h4, h5, h6⟩ := h st hst
        simp only [hid, if_true, applyUpdate, StInv, Option.getD]
        exact ⟨h1, h2, h3, h4, h5, h6⟩
      · simp only [hid, if_false]
        exact h st hst
  | crawlTick p =>
      intro x hx
      simp only [applyAct, updateStage, List.mem_map] at hx ⊢
      obtain ⟨st, hst, rfl⟩ := hx
      by_cases hid : st.id = "crawl"
      · obtain ⟨h1, h2, h3, h4, h5, h6⟩ := h st hst
        simp only [hid, if_true, applyUpdate, StInv, Option.getD]
        exact ⟨h1, h2, h3, h4, h5, h6⟩
      · simp only [hid, if_false]
        exact h st hst
  | setPhase ph => exact h
  | setCrawl p => exact h
  | setAppSt st => exact h
  | setErr e => exact h
  | setSelected i => exact h
  | setStartTime =>
      intro x hx
      simp only [applyAct, tickState] at hx ⊢
      exact stInv_mono (nowOf_ge s) (h x hx)
  | resetAct =>
      intro x hx
      simp only [applyAct, tickState] at hx ⊢
      exact stInv_initial hx
  | mapRunErr =>
      intro x hx
      simp only [applyAct, List.mem_map] at hx ⊢
      obtain ⟨st, hst, rfl⟩ := hx
      obtain ⟨h1, h2, h3, h4, h5, h6⟩ := h st hst
      by_cases hr : st.status = .running
      · simp only [hr, if_true]
        exact ⟨by simp, by simp, fun _ => h1 hr, h4, h5, by simp⟩
      · simp only [hr, if_false]
        exact ⟨h1, h2, h3, h4, h5, h6⟩
  | setCancel b => exact h
  | prDiscovered n => exact h
  | prCacheHit n sw seo => exact h
  | prAnalyzed n => exact h
  | prFanout sw seo => exact h
  | prPlan p => exact h
  | prSummary e => exact h
  | pushHistory r =>
      intro x hx
      simp only [applyAct, tickState] at hx ⊢
      exact stInv_mono (nowOf_ge s) (h x hx)
  | catchErr msg =>
      cases hc : s.isCancelling with
      | true => simpa only [applyAct, hc, if_true] using h
      | false =>
        intro x hx
        simp only [applyAct, hc, Bool.false_eq_true, if_false, tickState,
          List.mem_map] at hx ⊢
        obtain ⟨st, hst, rfl⟩ := hx
        obtain ⟨h1, h2, h3, h4, h5, h6⟩ := h st hst
        by_cases hr : st.status = .running
        · simp only [hr, if_true]
          refine ⟨by simp, by simp, fun _ => h1 hr, ?_, ?_, by simp⟩
          · exact fun a ha => le_trans (h4 a ha) (nowOf_ge s)
          · exact fun b hb => le_trans (h5 b hb) (nowOf_ge s)
        · simp only [hr, if_false]
          exact stInv_mono (nowOf_ge s) ⟨h1, h2, h3, h4, h5, h6⟩

theorem modelInv_execActs (l : List Act) (s : AppModel) (h : ModelInv s) :
    ModelInv (execActs l s) := by
  induction l generalizing s with
  | nil => exact h
  | cons a l ih => exact ih (applyAct a s) (modelInv_applyAct a s h)

theorem modelInv_execTrace (l : List Act) (s : AppModel) (h : ModelInv s) :
    ∀ x ∈ execTrace l s, ModelInv x := by
  induction l generalizing s with
  | nil =>
      intro x hx
      simp only [execTrace, List.scanl, List.mem_singleton] at hx
      exact hx ▸ h
  | cons a l ih =>
      intro x hx
      simp only [execTrace, List.scanl, List.mem_cons] at hx
      rcases hx with hx | hx
      · exact hx ▸ h
      · exact ih (applyAct a s) (modelInv_applyAct a s h) x hx

theorem noSkip_applyAct (a : Act) (s : AppModel) (h : NoSkip s) :
    NoSkip (applyAct a s) := by
  cases a with
  | logMsg m ty stg => exact fun x hx => h x (by simpa [applyAct, tickState] using hx)
  | stageRun id task =>
      intro x hx
      simp only [applyAct, tickState, updateStage, List.mem_map] at hx
      obtain ⟨st, hst, rfl⟩ := hx
      by_cases hid : st.id = id
      · simp [hid, applyUpdate]
      · simpa [hid] using h st hst
  | stageDone id =>
      intro x hx
      simp only [applyAct, tickState, updateStage, List.mem_map] at hx
      obtain ⟨st, hst, rfl⟩ := hx
      by_cases hid : st.id = id
      · simp [hid, applyUpdate]
      · simpa [hid] using h st hst
  | stageTask id msg =>
      intro x hx
      simp only [applyAct, updateStage, List.mem_map] at hx
      obtain ⟨st, hst, rfl⟩ := hx
      by_cases hid : st.id = id
      · simpa [hid, applyUpdate] using h st hst
      · simpa [hid] using h st hst
  | crawlTick p =>
      intro x hx
      simp only [applyAct, updateStage, List.mem_map] at hx
      obtain ⟨st, hst, rfl⟩ := hx
      by_cases hid : st.id = "crawl"
      · simpa [hid, applyUpdate] using h st hst
      · simpa [hid] using h st hst
  | setPhase ph => exact h
  | setCrawl p => exact h
  | setAppSt st => exact h
  | setErr e => exact h
  | setSelected i => exact h
  | setStartTime => exact fun x hx => h x (by simpa [applyAct, tickState] using hx)
  | resetAct =>
      intro x hx
      simp only [applyAct, tickState] at hx
      simp only [initialStages, pipelineStageDefinitions, List.map_cons, List.map_nil,
        List.mem_cons, List.not_mem_nil, or_false] at hx
      rcases hx with h' | h' | h' | h' | h' | h' | h' <;> subst h' <;> simp
  | mapRunErr =>
      intro x hx
      simp only [applyAct, List.mem_map] at hx
      obtain ⟨st, hst, rfl⟩ := hx
      by_cases hr : st.status = .running
      · simp [hr]
      · simpa [hr] using h st hst
  | setCancel b => exact h
  | prDiscovered n => exact h
  | prCacheHit n sw seo => exact h
  | prAnalyzed n => exact h
  | prFanout sw seo => exact h
  | prPlan p => exact h
  | prSummary e => exact h
  | pushHistory r => exact fun x hx => h x (by simpa [applyAct, tickState] using hx)
  | catchErr msg =>
      cases hc : s.isCancelling with
      | true => simpa only [applyAct, hc, if_true] using h
      | false =>
        intro x hx
        simp only [applyAct, hc, Bool.false_eq_true, if_false, tickState,
          List.mem_map] at hx
        obtain ⟨st, hst, rfl⟩ := hx
        by_cases hr : st.status = .running
        · simp [hr]
        · simpa [hr] using h st hst

theorem noSkip_execTrace (l : List Act) (s : AppModel) (h : NoSkip s) :
    ∀ x ∈ execTrace l s, NoSkip x := by
  induction l generalizing s with
  | nil =>
      intro x hx
      simp only [execTrace, List.scanl, List.mem_singleton] at hx
      exact hx ▸ h
  | cons a l ih =>
      intro x hx
      simp only [execTrace, List.scanl, List.mem_cons] at hx
      rcases hx with hx | hx
      · exact hx ▸ h
      · exact ih (applyAct a s) (noSkip_applyAct a s h) x hx

/-! ### Soundness of the status-level abstraction -/

theorem statuses_updateStage_status (s : List PipelineStage) (id : String)
    (u : StageUpdate) (v : StageStatus) (hv : u.status = some v) :
    (updateStage id u s).map (fun st => (st.id, st.status)) =
      setSt id v (s.map fun st => (st.id, st.status)) := by
  simp only [updateStage, setSt, List.map_map]
  congr 1
  funext st
  by_cases h : st.id = id <;> simp [h, applyUpdate, hv]

theorem statuses_updateStage_none (s : List PipelineStage) (id : String)
    (u : StageUpdate) (hv : u.status = none) :
    (updateStage id u s).map (fun st => (st.id, st.status)) =
      s.map fun st => (st.id, st.status) := by
  simp only [updateStage, List.map_map]
  congr 1
  funext st
  by_cases h : st.id = id <;> simp [h, applyUpdate, hv]

theorem absOf_applyAct (a : Act) (s : AppModel) :
    absOf (applyAct a s) = absStep a (absOf s) := by
  cases a with
  | logMsg m ty stg => rfl
  | stageRun id task =>
      simp only [absOf, absStep, applyAct, tickState, statuses]
      rw [statuses_updateStage_status _ _ _ .running rfl]
  | stageDone id =>
      simp only [absOf, absStep, applyAct, tickState, statuses]
      rw [statuses_updateStage_status _ _ _ .complete rfl]
  | stageTask id msg =>
      simp only [absOf, absStep, applyAct, statuses]
      rw [statuses_updateStage_none _ _ _ rfl]
  | crawlTick p =>
      simp only [absOf, absStep, applyAct, statuses]
      rw [statuses_updateStage_none _ _ _ rfl]
  | setPhase ph => rfl
  | setCrawl p => rfl
  | setAppSt st => rfl
  | setErr e => rfl
  | setSelected i => rfl
  | setStartTime => rfl
  | resetAct =>
      simp only [absOf, absStep, applyAct, tickState, statuses]
      constructor
  | mapRunErr =>
      simp only [absOf, absStep, applyAct, statuses, errRunning, List.map_map]
      congr 1
      apply List.map_congr_left
      intro st _
      by_cases h : st.status = .running <;> simp [h]
  | setCancel b => rfl
  | prDiscovered n => rfl
  | prCacheHit n sw seo => rfl
  | prAnalyzed n => rfl
  | prFanout sw seo => rfl
  | prPlan p => rfl
  | prSummary e => rfl
  | pushHistory r => rfl
  | catchErr msg =>
      cases hc : s.isCancelling with
      | true => simp [absOf, absStep, applyAct, hc]
      | false =>
        simp only [absOf, absStep, applyAct, hc, Bool.false_eq_true, if_false,
          tickState, statuses, errRunning, List.map_map]
        congr 1
        apply List.map_congr_left
        intro st _
        by_cases h : st.status = .running <;> simp [h]

theorem absOf_execActs (l : List Act) (s : AppModel) :
    absOf (execActs l s) = absExec l (absOf s) := by
  induction l generalizing s with
  | nil => rfl
  | cons a l ih =>
      simp only [execActs, List.foldl_cons, absExec] at *
      rw [ih (applyAct a s), absOf_applyAct]

theorem absStep_neutral {a : Act} (h : absNeutral a = true) (x : Abs) :
    absStep a x = x := by
  cases a <;> simp_all [absNeutral, absStep]

theorem absExec_neutral {l : List Act} (h : ∀ a ∈ l, absNeutral a = true)
    (x : Abs) : absExec l x = x := by
  induction l with
  | nil => rfl
  | cons a l ih =>
      simp only [absExec, List.foldl_cons]
      rw [absStep_neutral (h a (List.mem_cons_self a l)) x]
      exact ih fun b hb => h b (List.mem_cons_of_mem a hb)

theorem absExec_append (l1 l2 : List Act) (x : Abs) :
    absExec (l1 ++ l2) x = absExec l2 (absExec l1 x) :=
  List.foldl_append ..

theorem absExec_cons (a : Act) (l : List Act) (x : Abs) :
    absExec (a :: l) x = absExec l (absStep a x) := rfl

theorem statuses_applyAct_abs (a : Act) (s : AppModel) :
    statuses (applyAct a s) = (absStep a (absOf s)).sts :=
  congrArg Abs.sts (absOf_applyAct a s)

theorem absNeutral_crawlTicks {l : List CrawlProgress} :
    ∀ a ∈ l.map Act.crawlTick, absNeutral a = true := by
  intro a ha
  simp only [List.mem_map] at ha
  obtain ⟨p, -, rfl⟩ := ha
  rfl

theorem absNeutral_fanMsgs {l : List FanMsg} :
    ∀ a ∈ l.flatMap fanMsgActs, absNeutral a = true := by
  intro a ha
  simp only [List.mem_flatMap] at ha
  obtain ⟨m, -, hm⟩ := ha
  cases m with
  | fromAudit msg =>
      simp only [fanMsgActs] at hm
      split at hm <;>
        simp only [List.mem_cons, List.not_mem_nil, or_false] at hm <;>
        rcases hm with rfl | rfl <;> rfl
  | fromSeo msg =>
      simp only [fanMsgActs, List.mem_cons, List.not_mem_nil, or_false] at hm
      rcases hm with rfl | rfl <;> rfl

theorem absNeutral_planMsgs {l : List String} :
    ∀ a ∈ l.flatMap planMsgActs, absNeutral a = true := by
  intro a ha
  simp only [List.mem_flatMap] at ha
  obtain ⟨m, -, hm⟩ := ha
  simp only [planMsgActs, List.mem_cons, List.not_mem_nil, or_false] at hm
  rcases hm with rfl | rfl <;> rfl

/-! ### Clock monotonicity and per-field frame lemmas -/

theorem clock_le_applyAct (a : Act) (s : AppModel) :
    s.clock ≤ (applyAct a s).clock := by
  cases a <;>
    first
    | exact Nat.le_refl _
    | exact nowOf_ge s
    | (cases hc : s.isCancelling with
       | true => simp [applyAct, hc]
       | false =>
         simp only [applyAct, hc, Bool.false_eq_true, if_false, tickState]
         exact nowOf_ge s)

theorem clock_le_execActs (l : List Act) (s : AppModel) :
    s.clock ≤ (execActs l s).clock := by
  induction l generalizing s with
  | nil => exact Nat.le_refl _
  | cons a l ih =>
      exact le_trans (clock_le_applyAct a s) (ih (applyAct a s))

theorem stageBy_map_of_id (l : List PipelineStage) (i : String)
    (f : PipelineStage → PipelineStage) (hf : ∀ st, (f st).id = st.id) :
    (l.map f).find? (fun st => st.id = i) =
      (l.find? fun st => st.id = i).map f := by
  rw [List.find?_map]
  have hp : ((fun st : PipelineStage => decide (st.id = i)) ∘ f) =
      fun st : PipelineStage => decide (st.id = i) := by
    funext st
    simp [Function.comp, hf st]
  rw [hp]

theorem applyUpdate_id (st : PipelineStage) (u : StageUpdate) :
    (applyUpdate st u).id = st.id := rfl

theorem stageBy_updateStage (s : AppModel) (j i : String) (u : StageUpdate) :
    (updateStage j u s.stages).find? (fun st => st.id = i) =
      (stageBy s i).map fun st => if st.id = j then applyUpdate st u else st := by
  simp only [updateStage, stageBy]
  apply stageBy_map_of_id
  intro st
  by_cases h : st.id = j <;> simp [h, applyUpdate_id]

theorem stageBy_mapRunErr_eq (s : AppModel) (i : String) :
    stageBy (applyAct .mapRunErr s) i =
      (stageBy s i).map fun st =>
        if st.status = .running then { st with status := .error } else st := by
  show ((s.stages.map fun st =>
      if st.status = .running then { st with status := .error } else st).find?
        fun st => st.id = i) = _
  apply stageBy_map_of_id
  intro st
  by_cases hr : st.status = .running <;> simp [hr]

theorem stageBy_catchErr_eq (s : AppModel) (m : String)
    (hc : s.isCancelling = false) (i : String) :
    stageBy (applyAct (.catchErr m) s) i =
      (stageBy s i).map fun st =>
        if st.status = .running then { st with status := .error } else st := by
  have hact : applyAct (.catchErr m) s =
      { tickState s with
        errorMsg := some m
        activityLog := (tickState s).activityLog ++
          [⟨nowOf s, "Analysis failed: " ++ m, .error, none⟩]
        stages := (tickState s).stages.map fun st =>
          if st.status = .running then { st with status := .error } else st
        appState := .error } := by
    simp [applyAct, hc]
  rw [hact]
  show ((s.stages.map fun st =>
      if st.status = .running then { st with status := .error } else st).find?
        fun st => st.id = i) = _
  apply stageBy_map_of_id
  intro st
  by_cases hr : st.status = .running <;> simp [hr]

theorem startOf_applyAct {a : Act} {i : String} (h : writesStartOf a i = false)
    (s : AppModel) : startOf (applyAct a s) i = startOf s i := by
  cases a with
  | stageRun j task =>
      simp only [writesStartOf, beq_eq_false_iff_ne, ne_eq] at h
      have key : stageBy (applyAct (.stageRun j task) s) i =
          (stageBy s i).map (fun st => if st.id = j then applyUpdate st
            { status := some .running, startTime := some (nowOf s),
              currentTask := some task } else st) :=
        stageBy_updateStage s j i _
      simp only [startOf, key]
      cases hf : stageBy s i with
      | none => rfl
      | some st =>
          have hid : st.id = i := by simpa using List.find?_some hf
          simp [hid, Ne.symm h]
  | stageDone j =>
      have key : stageBy (applyAct (.stageDone j) s) i =
          (stageBy s i).map (fun st => if st.id = j then applyUpdate st
            { status := some .complete, progress := some 100,
              endTime := some (nowOf s) } else st) :=
        stageBy_updateStage s j i _
      simp only [startOf, key]
      cases hf : stageBy s i with
      | none => rfl
      | some st => by_cases hj : st.id = j <;> simp [hj, applyUpdate]
  | stageTask j msg =>
      have key : stageBy (applyAct (.stageTask j msg) s) i =
          (stageBy s i).map (fun st => if st.id = j then applyUpdate st
            { currentTask := some msg } else st) :=
        stageBy_updateStage s j i _
      simp only [startOf, key]
      cases hf : stageBy s i with
      | none => rfl
      | some st => by_cases hj : st.id = j <;> simp [hj, applyUpdate]
  | crawlTick p =>
      have key : stageBy (applyAct (.crawlTick p) s) i =
          (stageBy s i).map (fun st => if st.id = "crawl" then applyUpdate st
            { progress := some (if p.total > 0 then ((p.count : ℚ) / (p.total : ℚ)) * 100 else 0)
              itemsProcessed := some p.count
              totalItems := some p.total
              currentTask := some ("Processing " ++ p.currentSitemap.getD "sitemap" ++ "...") }
            else st) :=
        stageBy_updateStage s "crawl" i _
      simp only [startOf, key]
      cases hf : stageBy s i with
      | none => rfl
      | some st => by_cases hj : st.id = "crawl" <;> simp [hj, applyUpdate]
  | mapRunErr =>
      simp only [startOf, stageBy_mapRunErr_eq]
      cases hf : stageBy s i with
      | none => rfl
      | some st => by_cases hr : st.status = .running <;> simp [hr]
  | catchErr msg =>
      cases hc : s.isCancelling with
      | true => simp [applyAct, hc]
      | false =>
          simp only [startOf, stageBy_catchErr_eq s msg hc]
          cases hf : stageBy s i with
          | none => rfl
          | some st => by_cases hr : st.status = .running <;> simp [hr]
  | logMsg m ty stg => rfl
  | setPhase ph => rfl
  | setCrawl p => rfl
  | setAppSt st => rfl
  | setErr e => rfl
  | setSelected v => rfl
  | setStartTime => rfl
  | setCancel b => rfl
  | prDiscovered n => rfl
  | prCacheHit n sw seo => rfl
  | prAnalyzed n => rfl
  | prFanout sw seo => rfl
  | prPlan p => rfl
  | prSummary e => rfl
  | pushHistory r => rfl
  | resetAct => simp [writesStartOf] at h

theorem endOf_applyAct {a : Act} {i : String} (h : writesEndOf a i = false)
    (s : AppModel) : endOf (applyAct a s) i = endOf s i := by
  cases a with
  | stageDone j =>
      simp only [writesEndOf, beq_eq_false_iff_ne, ne_eq] at h
      have key : stageBy (applyAct (.stageDone j) s) i =
          (stageBy s i).map (fun st => if st.id = j then applyUpdate st
            { status := some .complete, progress := some 100,
              endTime := some (nowOf s) } else st) :=
        stageBy_updateStage s j i _
      simp only [endOf, key]
      cases hf : stageBy s i with
      | none => rfl
      | some st =>
          have hid : st.id = i := by simpa using List.find?_some hf
          simp [hid, Ne.symm h]
  | stageRun j task =>
      have key : stageBy (applyAct (.stageRun j task) s) i =
          (stageBy s i).map (fun st => if st.id = j then applyUpdate st
            { status := some .running, startTime := some (nowOf s),
              currentTask := some task } else st) :=
        stageBy_updateStage s j i _
      simp only [endOf, key]
      cases hf : stageBy s i with
      | none => rfl
      | some st => by_cases hj : st.id = j <;> simp [hj, applyUpdate]
  | stageTask j msg =>
      have key : stageBy (applyAct (.stageTask j msg) s) i =
          (stageBy s i).map (fun st => if st.id = j then applyUpdate st
            { currentTask := some msg } else st) :=
        stageBy_updateStage s j i _
      simp only [endOf, key]
      cases hf : stageBy s i with
      | none => rfl
      | some st => by_cases hj : st.id = j <;> simp [hj, applyUpdate]
  | crawlTick p =>
      have key : stageBy (applyAct (.crawlTick p) s) i =
          (stageBy s i).map (fun st => if st.id = "crawl" then applyUpdate st
            { progress := some (if p.total > 0 then ((p.count : ℚ) / (p.total : ℚ)) * 100 else 0)
              itemsProcessed := some p.count
              totalItems := some p.total
              currentTask := some ("Processing " ++ p.currentSitemap.getD "sitemap" ++ "...") }
            else st) :=
        stageBy_updateStage s "crawl" i _
      simp only [endOf, key]
      cases hf : stageBy s i with
      | none => rfl
      | some st => by_cases hj : st.id = "crawl" <;> simp [hj, applyUpdate]
  | mapRunErr =>
      simp only [endOf, stageBy_mapRunErr_eq]
      cases hf : stageBy s i with
      | none => rfl
      | some st => by_cases hr : st.status = .running <;> simp [hr]
  | catchErr msg =>
      cases hc : s.isCancelling with
      | true => simp [applyAct, hc]
      | false =>
          simp only [endOf, stageBy_catchErr_eq s msg hc]
          cases hf : stageBy s i with
          | none => rfl
          | some st => by_cases hr : st.status = .running <;> simp [hr]
  | logMsg m ty stg => rfl
  | setPhase ph => rfl
  | setCrawl p => rfl
  | setAppSt st => rfl
  | setErr e => rfl
  | setSelected v => rfl
  | setStartTime => rfl
  | setCancel b => rfl
  | prDiscovered n => rfl
  | prCacheHit n sw seo => rfl
  | prAnalyzed n => rfl
  | prFanout sw seo => rfl
  | prPlan p => rfl
  | prSummary e => rfl
  | pushHistory r => rfl
  | resetAct => simp [writesEndOf] at h

theorem startOf_execActs {l : List Act} {i : String}
    (h : ∀ a ∈ l, writesStartOf a i = false) (s : AppModel) :
    startOf (execActs l s) i = startOf s i := by
  induction l generalizing s with
  | nil => rfl
  | cons a l ih =>
      rw [show execActs (a :: l) s = execActs l (applyAct a s) from rfl,
        ih (fun b hb => h b (List.mem_cons_of_mem a hb)),
        startOf_applyAct (h a (List.mem_cons_self a l))]

theorem endOf_execActs {l : List Act} {i : String}
    (h : ∀ a ∈ l, writesEndOf a i = false) (s : AppModel) :
    endOf (execActs l s) i = endOf s i := by
  induction l generalizing s with
  | nil => rfl
  | cons a l ih =>
      rw [show execActs (a :: l) s = execActs l (applyAct a s) from rfl,
        ih (fun b hb => h b (List.mem_cons_of_mem a hb)),
        endOf_applyAct (h a (List.mem_cons_self a l))]

theorem startOf_stageRun_self {s : AppModel} {i : String} (task : String)
    {st : PipelineStage} (hs : stageBy s i = some st) :
    startOf (applyAct (.stageRun i task) s) i = some (nowOf s) := by
  have hid : st.id = i := by simpa using List.find?_some hs
  have key : stageBy (applyAct (.stageRun i task) s) i =
      (stageBy s i).map (fun x => if x.id = i then applyUpdate x
        { status := some .running, startTime := some (nowOf s),
          currentTask := some task } else x) :=
    stageBy_updateStage s i i _
  simp only [startOf, key, hs]
  simp [hid, applyUpdate]

theorem endOf_stageDone_self {s : AppModel} {i : String}
    {st : PipelineStage} (hs : stageBy s i = some st) :
    endOf (applyAct (.stageDone i) s) i = some (nowOf s) := by
  have hid : st.id = i := by simpa using List.find?_some hs
  have key : stageBy (applyAct (.stageDone i) s) i =
      (stageBy s i).map (fun x => if x.id = i then applyUpdate x
        { status := some .complete, progress := some 100,
          endTime := some (nowOf s) } else x) :=
    stageBy_updateStage s i i _
  simp only [endOf, key, hs]
  simp [hid, applyUpdate]

theorem statusOf_eq_statuses (s : AppModel) (i : String) :
    statusOf s i = ((statuses s).find? fun p => p.1 = i).map fun p => p.2 := by
  simp only [statusOf, statuses, stageBy]
  rw [List.find?_map, Option.map_map]
  rfl

theorem endOf_complete_le_clock {s : AppModel} {i : String}
    (hinv : ModelInv s) (hc : statusOf s i = some .complete) :
    ∃ e, endOf s i = some e ∧ e ≤ s.clock := by
  simp only [statusOf, Option.map_eq_some'] at hc
  obtain ⟨st, hst, hcs⟩ := hc
  have hmem : st ∈ s.stages := List.mem_of_find?_eq_some hst
  obtain ⟨-, h2, -, -, h5, -⟩ := hinv st hmem
  obtain ⟨e, he⟩ := Option.isSome_iff_exists.mp (h2 hcs)
  exact ⟨e, by simp [endOf, hst, he], h5 e (by simp [he])⟩

/-! ### History and partial-results frame lemmas -/

theorem execActs_append (l1 l2 : List Act) (s : AppModel) :
    execActs (l1 ++ l2) s = execActs l2 (execActs l1 s) :=
  List.foldl_append ..

theorem history_applyAct {a : Act} (h : histNeutral a = true) (s : AppModel) :
    (applyAct a s).history = s.history ∧
      (applyAct a s).persisted = s.persisted := by
  cases a with
  | catchErr m =>
      cases hc : s.isCancelling with
      | true => simp [applyAct, hc]
      | false => simp [applyAct, hc, tickState]
  | pushHistory r => simp [histNeutral] at h
  | _ => exact ⟨rfl, rfl⟩

theorem history_execActs {l : List Act} (h : ∀ a ∈ l, histNeutral a = true)
    (s : AppModel) :
    (execActs l s).history = s.history ∧
      (execActs l s).persisted = s.persisted := by
  induction l generalizing s with
  | nil => exact ⟨rfl, rfl⟩
  | cons a l ih =>
      have h1 := history_applyAct (h a (List.mem_cons_self a l)) s
      have h2 := ih (fun b hb => h b (List.mem_cons_of_mem a hb)) (applyAct a s)
      exact ⟨h2.1.trans h1.1, h2.2.trans h1.2⟩

theorem history_pushHistory (r : RecordSeed) (s : AppModel) :
    (applyAct (.pushHistory r) s).history =
        (mkRecord (nowOf s) r :: s.history).take 10 ∧
      (applyAct (.pushHistory r) s).persisted =
        (mkRecord (nowOf s) r :: s.history).take 10 :=
  ⟨rfl, rfl⟩

theorem prWrites_applyAct {a : Act} (h : a ≠ .resetAct) (s : AppModel) :
    (applyAct a s).prWrites = s.prWrites ++ ghostWrites [a] := by
  cases a with
  | catchErr m =>
      cases hc : s.isCancelling with
      | true => simp [applyAct, hc, ghostWrites]
      | false => simp [applyAct, hc, tickState, ghostWrites]
  | resetAct => exact absurd rfl h
  | prDiscovered n => simp [applyAct, ghostWrites]
  | prCacheHit n sw seo => simp [applyAct, ghostWrites]
  | prAnalyzed n => simp [applyAct, ghostWrites]
  | prFanout sw seo => simp [applyAct, ghostWrites]
  | prPlan p => simp [applyAct, ghostWrites]
  | prSummary e => simp [applyAct, ghostWrites]
  | _ => simp [applyAct, tickState, ghostWrites]

theorem ghostWrites_append (l1 l2 : List Act) :
    ghostWrites (l1 ++ l2) = ghostWrites l1 ++ ghostWrites l2 := by
  induction l1 with
  | nil => rfl
  | cons a l ih => simp [ghostWrites, ih, List.append_assoc]

theorem prWrites_execActs {l : List Act} (h : Act.resetAct ∉ l)
    (s : AppModel) :
    (execActs l s).prWrites = s.prWrites ++ ghostWrites l := by
  induction l generalizing s with
  | nil => simp [execActs, ghostWrites]
  | cons a l ih =>
      have ha : a ≠ .resetAct := fun hh => h (hh ▸ List.mem_cons_self a l)
      have h2 := ih (fun hh => h (List.mem_cons_of_mem a hh)) (applyAct a s)
      rw [show execActs (a :: l) s = execActs l (applyAct a s) from rfl, h2,
        prWrites_applyAct ha, show ghostWrites (a :: l) = ghostWrites [a] ++ ghostWrites l from
          (ghostWrites_append [a] l).symm ▸ rfl,
        List.append_assoc]

theorem pred_execTrace {P : AppModel → Prop} {l : List Act}
    (hstep : ∀ a ∈ l, ∀ s, P s → P (applyAct a s)) :
    ∀ s, P s → ∀ x ∈ execTrace l s, P x := by
  induction l with
  | nil =>
      intro s hs x hx
      simp only [execTrace, List.scanl, List.mem_singleton] at hx
      exact hx ▸ hs
  | cons a l ih =>
      intro s hs x hx
      simp only [execTrace, List.scanl, List.mem_cons] at hx
      rcases hx with hx | hx
      · exact hx ▸ hs
      · exact ih (fun b hb => hstep b (List.mem_cons_of_mem a hb))
          (applyAct a s) (hstep a (List.mem_cons_self a l) s hs) x hx

/-! ### The progress-callback act families -/

theorem progressAct_crawlTicks {l : List CrawlProgress} :
    ∀ a ∈ l.map Act.crawlTick, progressAct a = true := by
  intro a ha
  simp only [List.mem_map] at ha
  obtain ⟨p, -, rfl⟩ := ha
  rfl

theorem progressAct_fanMsgs {l : List FanMsg} :
    ∀ a ∈ l.flatMap fanMsgActs, progressAct a = true := by
  intro a ha
  simp only [List.mem_flatMap] at ha
  obtain ⟨m, -, hm⟩ := ha
  cases m with
  | fromAudit msg =>
      simp only [fanMsgActs] at hm
      split at hm <;>
        simp only [List.mem_cons, List.not_mem_nil, or_false] at hm <;>
        rcases hm with rfl | rfl <;> rfl
  | fromSeo msg =>
      simp only [fanMsgActs, List.mem_cons, List.not_mem_nil, or_false] at hm
      rcases hm with rfl | rfl <;> rfl

theorem progressAct_planMsgs {l : List String} :
    ∀ a ∈ l.flatMap planMsgActs, progressAct a = true := by
  intro a ha
  simp only [List.mem_flatMap] at ha
  obtain ⟨m, -, hm⟩ := ha
  simp only [planMsgActs, List.mem_cons, List.not_mem_nil, or_false] at hm
  rcases hm with rfl | rfl <;> rfl

theorem progressAct_absNeutral {a : Act} (h : progressAct a = true) :
    absNeutral a = true := by
  cases a <;> first | rfl | simp [progressAct] at h

theorem progressAct_histNeutral {a : Act} (h : progressAct a = true) :
    histNeutral a = true := by
  cases a <;> first | rfl | simp [progressAct] at h

theorem progressAct_prNeutral {a : Act} (h : progressAct a = true) :
    a ≠ .resetAct ∧ ghostWrites [a] = [] ∧
      ∀ s : AppModel, (applyAct a s).partialResults = s.partialResults := by
  cases a <;>
    first
    | exact ⟨fun hh => Act.noConfusion hh, rfl, fun s => rfl⟩
    | simp [progressAct] at h

theorem progressAct_noTimes {a : Act} (h : progressAct a = true) (i : String) :
    writesStartOf a i = false ∧ writesEndOf a i = false := by
  cases a <;> first | exact ⟨rfl, rfl⟩ | simp [progressAct] at h

theorem progressAct_onlyCrawl {a : Act} (h : progressAct a = true) :
    onlyCrawlAct a = true := by
  cases a <;> first | rfl | simp [progressAct] at h

theorem sixPending_absStep {a : Act} {s : AppModel}
    (hc : ∀ p ∈ statuses s, p.1 ≠ "crawl" → p.2 = .pending)
    (ha : onlyCrawlAct a = true) :
    ∀ p ∈ statuses (applyAct a s), p.1 ≠ "crawl" → p.2 = .pending := by
  rw [statuses_applyAct_abs]
  cases a with
  | stageRun id task =>
      have hid : id = "crawl" := by simpa [onlyCrawlAct] using ha
      subst hid
      intro p hp hne
      simp only [absStep, absOf, setSt, List.mem_map] at hp
      obtain ⟨q, hq, rfl⟩ := hp
      by_cases h1 : q.1 = "crawl"
      · simp only [h1, if_true] at hne ⊢
        exact absurd rfl hne
      · simp only [h1, if_false] at hne ⊢
        exact hc q hq hne
  | stageDone id =>
      have hid : id = "crawl" := by simpa [onlyCrawlAct] using ha
      subst hid
      intro p hp hne
      simp only [absStep, absOf, setSt, List.mem_map] at hp
      obtain ⟨q, hq, rfl⟩ := hp
      by_cases h1 : q.1 = "crawl"
      · simp only [h1, if_true] at hne ⊢
        exact absurd rfl hne
      · simp only [h1, if_false] at hne ⊢
        exact hc q hq hne
  | mapRunErr =>
      intro p hp hne
      simp only [absStep, absOf, errRunning, List.mem_map] at hp
      obtain ⟨q, hq, rfl⟩ := hp
      by_cases h2 : q.2 = .running
      · have := hc q hq
        by_cases h1 : q.1 = "crawl"
        · simp only [h2, if_true] at hne
          exact absurd h1 hne
        · rw [this h1] at h2
          cases h2
      · simp only [h2, if_false] at hne ⊢
        exact hc q hq hne
  | catchErr m =>
      intro p hp hne
      cases hfl : s.isCancelling with
      | true =>
          have heq : absStep (.catchErr m) (absOf s) = absOf s := by
            simp [absStep, absOf, hfl]
          rw [heq] at hp
          exact hc p hp hne
      | false =>
          have heq : absStep (.catchErr m) (absOf s) =
              ⟨false, errRunning (statuses s), .error, some m⟩ := by
            simp [absStep, absOf, hfl]
          rw [heq] at hp
          simp only [errRunning, List.mem_map] at hp
          obtain ⟨q, hq, rfl⟩ := hp
          by_cases h2 : q.2 = .running
          · have := hc q hq
            by_cases h1 : q.1 = "crawl"
            · simp only [h2, if_true] at hne
              exact absurd h1 hne
            · rw [this h1] at h2
              cases h2
          · simp only [h2, if_false] at hne ⊢
            exact hc q hq hne
  | resetAct =>
      intro p hp hne
      simp only [absStep, pendingStatuses, List.mem_cons, List.not_mem_nil,
        or_false] at hp
      rcases hp with rfl | rfl | rfl | rfl | rfl | rfl | rfl <;> rfl
  | logMsg m ty stg => exact hc
  | stageTask id msg => exact hc
  | crawlTick p => exact hc
  | setPhase ph => exact hc
  | setCrawl p => exact hc
  | setAppSt st => exact hc
  | setErr e => exact hc
  | setSelected i => exact hc
  | setStartTime => exact hc
  | setCancel b => exact hc
  | prDiscovered n => exact hc
  | prCacheHit n sw seo => exact hc
  | prAnalyzed n => exact hc
  | prFanout sw seo => exact hc
  | prPlan p => exact hc
  | prSummary e => exact hc
  | pushHistory r => exact hc

/-! ### Initial-state facts -/

theorem modelInv_initialModel (ts : List Nat) : ModelInv (initialModel ts) :=
  fun _ hst => stInv_initial hst

theorem noSkip_initialModel (ts : List Nat) : NoSkip (initialModel ts) := by
  intro st hst
  simp only [initialModel, initialStages, pipelineStageDefinitions, List.map_cons,
    List.map_nil, List.mem_cons, List.not_mem_nil, or_false] at hst
  rcases hst with h | h | h | h | h | h | h <;> subst h <;> simp

theorem self_mem_execTrace (l : List Act) (s : AppModel) :
    s ∈ execTrace l s := by
  cases l <;> exact List.mem_cons_self _ _

theorem execActs_mem_execTrace (l1 l2 : List Act) (s : AppModel) :
    execActs l1 s ∈ execTrace (l1 ++ l2) s := by
  induction l1 generalizing s with
  | nil =>
      show s ∈ execTrace l2 s
      cases l2 <;> exact List.mem_cons_self _ _
  | cons a l ih =>
      show execActs l (applyAct a s) ∈ s :: execTrace (l ++ l2) (applyAct a s)
      exact List.mem_cons_of_mem s (ih (applyAct a s))

theorem final_mem_execTrace (l : List Act) (s : AppModel) :
    execActs l s ∈ execTrace l s := by
  have h := execActs_mem_execTrace l [] s
  rwa [List.append_nil] at h

/-! ### Stage-id shape preservation -/

theorem ids_applyAct (a : Act) (s : AppModel)
    (h : s.stages.map (fun st => st.id) = stageIds) :
    (applyAct a s).stages.map (fun st => st.id) = stageIds := by
  cases a with
  | stageRun id task =>
      show (updateStage id _ s.stages).map _ = _
      simp only [updateStage, List.map_map]
      rw [← h]
      apply List.map_congr_left
      intro st _
      by_cases hj : st.id = id <;> simp [hj, applyUpdate_id]
  | stageDone id =>
      show (updateStage id _ s.stages).map _ = _
      simp only [updateStage, List.map_map]
      rw [← h]
      apply List.map_congr_left
      intro st _
      by_cases hj : st.id = id <;> simp [hj, applyUpdate_id]
  | stageTask id msg =>
      show (updateStage id _ s.stages).map _ = _
      simp only [updateStage, List.map_map]
      rw [← h]
      apply List.map_congr_left
      intro st _
      by_cases hj : st.id = id <;> simp [hj, applyUpdate_id]
  | crawlTick p =>
      show (updateStage "crawl" _ s.stages).map _ = _
      simp only [updateStage, List.map_map]
      rw [← h]
      apply List.map_congr_left
      intro st _
      by_cases hj : st.id = "crawl" <;> simp [hj, applyUpdate_id]
  | mapRunErr =>
      show (s.stages.map _).map _ = _
      simp only [List.map_map]
      rw [← h]
      apply List.map_congr_left
      intro st _
      by_cases hr : st.status = .running <;> simp [hr]
  | catchErr m =>
      cases hc : s.isCancelling with
      | true => simpa [applyAct, hc] using h
      | false =>
          show ((if s.isCancelling = true then s else _).stages.map _) = _
          rw [hc]
          show ((s.stages.map _).map _) = _
          simp only [List.map_map]
          rw [← h]
          apply List.map_congr_left
          intro st _
          by_cases hr : st.status = .running <;> simp [hr]
  | resetAct => rfl
  | logMsg m ty stg => exact h
  | setPhase ph => exact h
  | setCrawl p => exact h
  | setAppSt st => exact h
  | setErr e => exact h
  | setSelected i => exact h
  | setStartTime => exact h
  | setCancel b => exact h
  | prDiscovered n => exact h
  | prCacheHit n sw seo => exact h
  | prAnalyzed n => exact h
  | prFanout sw seo => exact h
  | prPlan p => exact h
  | prSummary e => exact h
  | pushHistory r => exact h

theorem ids_execActs (l : List Act) (s : AppModel)
    (h : s.stages.map (fun st => st.id) = stageIds) :
    (execActs l s).stages.map (fun st => st.id) = stageIds := by
  induction l generalizing s with
  | nil => exact h
  | cons a l ih => exact ih (applyAct a s) (ids_applyAct a s h)

theorem ids_reset (s : AppModel) :
    (applyAct .resetAct s).stages.map (fun st => st.id) = stageIds := rfl

theorem ids_startActs (s0 : AppModel) (l : List Act) :
    (execActs (startActs ++ l) s0).stages.map (fun st => st.id) = stageIds := by
  rw [execActs_append]
  apply ids_execActs
  show (execActs [Act.setStartTime,
    Act.logMsg "Starting sitemap discovery..." .info (some "crawl"),
    Act.stageRun "crawl" "Initializing parallel crawler..."]
      (applyAct .resetAct (execActs [Act.setAppSt .loading, Act.setPhase .crawling,
        Act.setErr none, Act.setSelected none, Act.setCrawl none] s0))).stages.map
      (fun st => st.id) = stageIds
  exact ids_execActs _ _ (ids_reset _)

theorem ids_execActs_append (l1 l2 : List Act) (s : AppModel)
    (h : (execActs l1 s).stages.map (fun st => st.id) = stageIds) :
    (execActs (l1 ++ l2) s).stages.map (fun st => st.id) = stageIds := by
  rw [execActs_append]
  exact ids_execActs _ _ h

theorem stageBy_isSome_of_ids {s : AppModel} {i : String}
    (h : s.stages.map (fun st => st.id) = stageIds) (hi : i ∈ stageIds) :
    (stageBy s i).isSome := by
  rw [stageBy, List.find?_isSome]
  rw [← h] at hi
  simp only [List.mem_map] at hi
  obtain ⟨st, hst, hid⟩ := hi
  exact ⟨st, hst, by simp [hid]⟩

/-! ### The fan-out join -/

theorem planTailActs_no_time_writes (d : WizardSubmitData) (env : CollabEnv)
    (sw : SitewideAnalysis) (an : SeoAnalysisResult)
    (srcs : List GroundingSource) :
    ∀ a ∈ planTailActs d env sw an srcs,
      writesStartOf a "actionplan" = false ∧
      writesEndOf a "competitor" = false ∧
      writesEndOf a "technical" = false ∧
      writesEndOf a "content" = false := by
  intro a ha
  rcases hp : env.plan with msg | plan <;>
    simp only [planTailActs, hp, List.mem_cons, List.mem_append,
      List.not_mem_nil, or_false] at ha
  · subst ha
    exact ⟨rfl, rfl, rfl, rfl⟩
  · rcases ha with (rfl | rfl | rfl | rfl | rfl) | ha
    · exact ⟨rfl, by decide, by decide, by decide⟩
    · exact ⟨rfl, rfl, rfl, rfl⟩
    · exact ⟨rfl, rfl, rfl, rfl⟩
    · exact ⟨rfl, rfl, rfl, rfl⟩
    · exact ⟨by decide, rfl, rfl, rfl⟩
    · rcases hs : env.summary with msg | ex <;>
        simp only [hs, List.mem_cons, List.not_mem_nil, or_false] at ha
      · subst ha
        exact ⟨rfl, rfl, rfl, rfl⟩
      · rcases ha with rfl | rfl | rfl | rfl | rfl | rfl <;>
          exact ⟨rfl, rfl, rfl, rfl⟩

theorem join_core (s0 : AppModel) (pre mid tail : List Act) (task : String)
    (hids : (execActs pre s0).stages.map (fun st => st.id) = stageIds)
    (hmid : ∀ a ∈ mid, writesEndOf a "competitor" = false ∧
      writesEndOf a "technical" = false ∧ writesEndOf a "content" = false)
    (htail : ∀ a ∈ tail, writesStartOf a "actionplan" = false ∧
      writesEndOf a "competitor" = false ∧ writesEndOf a "technical" = false ∧
      writesEndOf a "content" = false) :
    ∃ t c1 c2 c3,
      startOf (execActs (pre ++ [.stageDone "competitor", .stageDone "technical",
        .stageDone "content"] ++ mid ++ (.stageRun "actionplan" task :: tail)) s0)
        "actionplan" = some t ∧
      endOf (execActs (pre ++ [.stageDone "competitor", .stageDone "technical",
        .stageDone "content"] ++ mid ++ (.stageRun "actionplan" task :: tail)) s0)
        "competitor" = some c1 ∧
      endOf (execActs (pre ++ [.stageDone "competitor", .stageDone "technical",
        .stageDone "content"] ++ mid ++ (.stageRun "actionplan" task :: tail)) s0)
        "technical" = some c2 ∧
      endOf (execActs (pre ++ [.stageDone "competitor", .stageDone "technical",
        .stageDone "content"] ++ mid ++ (.stageRun "actionplan" task :: tail)) s0)
        "content" = some c3 ∧
      c1 ≤ t ∧ c2 ≤ t ∧ c3 ≤ t := by
  set mP := execActs pre s0 with hmP
  set mA := applyAct (.stageDone "competitor") mP with hmA
  set mB := applyAct (.stageDone "technical") mA with hmB
  set mC := applyAct (.stageDone "content") mB with hmC
  set mD := execActs mid mC with hmD
  set mE := applyAct (.stageRun "actionplan" task) mD with hmE
  have hfin : execActs (pre ++ [Act.stageDone "competitor", Act.stageDone "technical",
      Act.stageDone "content"] ++ mid ++ (Act.stageRun "actionplan" task :: tail)) s0
      = execActs tail mE := by
    rw [execActs_append, execActs_append, execActs_append]
    rfl
  have hidsA : mA.stages.map (fun st => st.id) = stageIds := ids_applyAct _ _ hids
  have hidsB : mB.stages.map (fun st => st.id) = stageIds := ids_applyAct _ _ hidsA
  have hidsC : mC.stages.map (fun st => st.id) = stageIds := ids_applyAct _ _ hidsB
  have hidsD : mD.stages.map (fun st => st.id) = stageIds := ids_execActs _ _ hidsC
  obtain ⟨stC, hstC⟩ := Option.isSome_iff_exists.mp
    (@stageBy_isSome_of_ids mP "competitor" hids (by decide))
  obtain ⟨stT, hstT⟩ := Option.isSome_iff_exists.mp
    (@stageBy_isSome_of_ids mA "technical" hidsA (by decide))
  obtain ⟨stK, hstK⟩ := Option.isSome_iff_exists.mp
    (@stageBy_isSome_of_ids mB "content" hidsB (by decide))
  obtain ⟨stP, hstP⟩ := Option.isSome_iff_exists.mp
    (@stageBy_isSome_of_ids mD "actionplan" hidsD (by decide))
  have wTC : writesEndOf (Act.stageDone "technical") "competitor" = false := by decide
  have wKC : writesEndOf (Act.stageDone "content") "competitor" = false := by decide
  have wKT : writesEndOf (Act.stageDone "content") "technical" = false := by decide
  have wRC : writesEndOf (Act.stageRun "actionplan" task) "competitor" = false := rfl
  have wRT : writesEndOf (Act.stageRun "actionplan" task) "technical" = false := rfl
  have wRK : writesEndOf (Act.stageRun "actionplan" task) "content" = false := rfl
  have he1A : endOf mA "competitor" = some (nowOf mP) := endOf_stageDone_self hstC
  have he2B : endOf mB "technical" = some (nowOf mA) := endOf_stageDone_self hstT
  have he3C : endOf mC "content" = some (nowOf mB) := endOf_stageDone_self hstK
  have he1C : endOf mC "competitor" = some (nowOf mP) := by
    rw [hmC, endOf_applyAct wKC, hmB, endOf_applyAct wTC]
    exact he1A
  have he2C : endOf mC "technical" = some (nowOf mA) := by
    rw [hmC, endOf_applyAct wKT]
    exact he2B
  have hmidEnds : ∀ x ∈ mid, writesEndOf x "competitor" = false :=
    fun x hx => (hmid x hx).1
  have he1D : endOf mD "competitor" = some (nowOf mP) := by
    rw [hmD, endOf_execActs hmidEnds]
    exact he1C
  have he2D : endOf mD "technical" = some (nowOf mA) := by
    rw [hmD, endOf_execActs (fun x hx => (hmid x hx).2.1)]
    exact he2C
  have he3D : endOf mD "content" = some (nowOf mB) := by
    rw [hmD, endOf_execActs (fun x hx => (hmid x hx).2.2)]
    exact he3C
  have hstart : startOf mE "actionplan" = some (nowOf mD) :=
    startOf_stageRun_self task hstP
  have hfs : startOf (execActs tail mE) "actionplan" = some (nowOf mD) := by
    rw [startOf_execActs (fun x hx => (htail x hx).1)]
    exact hstart
  have hf1 : endOf (execActs tail mE) "competitor" = some (nowOf mP) := by
    rw [endOf_execActs (fun x hx => (htail x hx).2.1), hmE, endOf_applyAct wRC]
    exact he1D
  have hf2 : endOf (execActs tail mE) "technical" = some (nowOf mA) := by
    rw [endOf_execActs (fun x hx => (htail x hx).2.2.1), hmE, endOf_applyAct wRT]
    exact he2D
  have hf3 : endOf (execActs tail mE) "content" = some (nowOf mB) := by
    rw [endOf_execActs (fun x hx => (htail x hx).2.2.2), hmE, endOf_applyAct wRK]
    exact he3D
  have hcA : mA.clock = nowOf mP := rfl
  have hcB : mB.clock = nowOf mA := rfl
  have hcC : mC.clock = nowOf mB := rfl
  have hcD : mC.clock ≤ mD.clock := hmD ▸ clock_le_execActs mid mC
  have h1t : nowOf mP ≤ nowOf mD := by
    calc nowOf mP = mA.clock := hcA.symm
      _ ≤ mB.clock := hcB ▸ nowOf_ge mA
      _ ≤ mC.clock := hcC ▸ nowOf_ge mB
      _ ≤ mD.clock := hcD
      _ ≤ nowOf mD := nowOf_ge mD
  have h2t : nowOf mA ≤ nowOf mD := by
    calc nowOf mA = mB.clock := hcB.symm
      _ ≤ mC.clock := hcC ▸ nowOf_ge mB
      _ ≤ mD.clock := hcD
      _ ≤ nowOf mD := nowOf_ge mD
  have h3t : nowOf mB ≤ nowOf mD := by
    calc nowOf mB = mC.clock := hcC.symm
      _ ≤ mD.clock := hcD
      _ ≤ nowOf mD := nowOf_ge mD
  refine ⟨nowOf mD, nowOf mP, nowOf mA, nowOf mB, ?_, ?_, ?_, ?_, h1t, h2t, h3t⟩
  · rw [hfin]; exact hfs
  · rw [hfin]; exact hf1
  · rw [hfin]; exact hf2
  · rw [hfin]; exact hf3

/-! ### Claim theorems -/

/-- C1: the spec requires that a collaborator call issued before
cancellation that resolves after cancellation must not mutate the
post-cancellation (reset) pipeline state, and makes the run-identity guard
mandatory.  The code has no such guard: in this concrete scenario, a run is
started, the user cancels (leaving the fully reset state: all stages
pending, log empty, partial results empty), and then the crawler promise
issued before the cancellation resolves; its continuation mutates the
reset state - it marks the crawl stage complete, writes the discovered-URL
count into the partial results, appends log entries, and even drives the
whole pipeline to a fresh history record and the results screen. -/
theorem claim1_stale_resolution_mutates_reset_state :
    statuses staleCancelled = pendingStatuses ∧
    staleCancelled.activityLog = [] ∧
    staleCancelled.partialResults = {} ∧
    staleCancelled.appState = .idle ∧
    statusOf staleLate "crawl" = some .complete ∧
    staleLate.partialResults.urlsDiscovered = some 1 ∧
    staleLate.activityLog ≠ [] ∧
    staleLate.appState = .results ∧
    staleLate.history.length = 1 := by decide

/-- C2 counterexample: the claim states `status ∈ {complete, error} ⇒
endTime set ∧ endTime ≥ startTime`, in particular for stages marked error
by the run-failure handler, and for the four cache-hit stages.  At this
concrete run whose fan-out rejects, the competitor stage ends in status
error with `endTime = none` (the failure handler sets no end time); and on
a concrete cache-hit run the rank stage is complete with `startTime =
none`, so `endTime ≥ startTime` has no witness there either. -/
theorem claim2_counterexample :
    handleSubmitRun (some 0) dWit envFanFailWit (initialModel ticks30) ∈
      execTrace (runActs (some 0) dWit envFanFailWit) (initialModel ticks30) ∧
    (stageBy (handleSubmitRun (some 0) dWit envFanFailWit (initialModel ticks30))
        "competitor").map (fun st => (st.status, st.startTime.isSome, st.endTime)) =
      some (.error, true, none) ∧
    (stageBy (handleSubmitRun (some 0) dWit envHitWit (initialModel ticks30))
        "rank").map (fun st => (st.status, st.startTime, st.endTime.isSome)) =
      some (.complete, none, true) := by decide

/-- C2 (amended): every stage state reachable during or after a run (or
after a cancellation) satisfies: status = running implies startTime is
set; status = complete implies endTime is set and endTime is at least
startTime whenever startTime is also set (the four cache-hit stages are
complete with endTime but no startTime); status = error implies startTime
is set - but the run-failure and cancellation handlers do not set
endTime, so an error status does not guarantee an endTime. -/
theorem claim2_stage_time_invariant
    (cfg : Option AiConfig) (d : WizardSubmitData) (env : CollabEnv)
    (s0 : AppModel) (hinv : ModelInv s0) :
    ∀ s ∈ execTrace (runActs cfg d env) s0 ++ execTrace cancelActs s0,
      ∀ st ∈ s.stages,
        (st.status = .running → st.startTime.isSome) ∧
        (st.status = .complete → st.endTime.isSome ∧
          ∀ a ∈ st.startTime, ∀ b ∈ st.endTime, a ≤ b) ∧
        (st.status = .error → st.startTime.isSome) := by
  intro s hs
  have hminv : ModelInv s := by
    rcases List.mem_append.mp hs with h | h
    · exact modelInv_execTrace _ _ hinv s h
    · exact modelInv_execTrace _ _ hinv s h
  intro st hst
  obtain ⟨h1, h2, h3, -, -, h6⟩ := hminv st hst
  exact ⟨h1, fun hc => ⟨h2 hc, h6 hc⟩, h3⟩

/-- Witness for C2: the amended invariant instantiated at a fresh mount
and the concrete all-successful cache-miss run. -/
theorem claim2_stage_time_invariant_witness :
    ∃ s ∈ execTrace (runActs (some 0) dWit envMissWit) (initialModel ticks30) ++
        execTrace cancelActs (initialModel ticks30),
      ∀ st ∈ s.stages,
        (st.status = .running → st.startTime.isSome) ∧
        (st.status = .complete → st.endTime.isSome ∧
          ∀ a ∈ st.startTime, ∀ b ∈ st.endTime, a ≤ b) ∧
        (st.status = .error → st.startTime.isSome) :=
  ⟨handleSubmitRun (some 0) dWit envMissWit (initialModel ticks30),
    List.mem_append.mpr (Or.inl (final_mem_execTrace _ _)),
    claim2_stage_time_invariant (some 0) dWit envMissWit (initialModel ticks30)
      (modelInv_initialModel ticks30) _
      (List.mem_append.mpr (Or.inl (final_mem_execTrace _ _)))⟩

/-- C9: no operation of the orchestrator ever assigns the status skipped:
every stage state reachable by a run (any collaborator outcomes, including
the cache-hit path) or by a cancellation has a status other than
skipped. -/
theorem claim9_skipped_never_assigned
    (cfg : Option AiConfig) (d : WizardSubmitData) (env : CollabEnv)
    (s0 : AppModel) (h : NoSkip s0) :
    ∀ s ∈ execTrace (runActs cfg d env) s0 ++ execTrace cancelActs s0,
      ∀ st ∈ s.stages, st.status ≠ .skipped := by
  intro s hs
  rcases List.mem_append.mp hs with hm | hm
  · exact noSkip_execTrace _ _ h s hm
  · exact noSkip_execTrace _ _ h s hm

/-- Witness for C9: instantiated at a fresh mount with the concrete
cache-hit environment. -/
theorem claim9_skipped_never_assigned_witness :
    ∃ s ∈ execTrace (runActs (some 0) dWit envHitWit) (initialModel ticks30) ++
        execTrace cancelActs (initialModel ticks30),
      ∀ st ∈ s.stages, st.status ≠ .skipped :=
  ⟨handleSubmitRun (some 0) dWit envHitWit (initialModel ticks30),
    List.mem_append.mpr (Or.inl (final_mem_execTrace _ _)),
    claim9_skipped_never_assigned (some 0) dWit envHitWit (initialModel ticks30)
      (noSkip_initialModel ticks30) _
      (List.mem_append.mpr (Or.inl (final_mem_execTrace _ _)))⟩

/-- C4 counterexample: the claim states that when a crawl progress signal
carries a zero total the current progress value is retained (never
regressed to 0).  In this concrete run the crawl stage is at progress 50
after a (5, 10) signal; the next signal (7, 0) resets its progress to 0. -/
theorem claim4_counterexample :
    zeroTotalS1 ∈ execTrace (runActs (some 0) dWit envZeroTotalWit)
      (initialModel ticks30) ∧
    zeroTotalS2 ∈ execTrace (runActs (some 0) dWit envZeroTotalWit)
      (initialModel ticks30) ∧
    zeroTotalS2 = applyAct (.crawlTick ⟨7, 0, none⟩) zeroTotalS1 ∧
    progressOf zeroTotalS1 "crawl" =
      some ((((5 : Nat) : ℚ) / ((10 : Nat) : ℚ)) * 100) ∧
    (((5 : Nat) : ℚ) / ((10 : Nat) : ℚ)) * 100 = 50 ∧
    progressOf zeroTotalS2 "crawl" = some 0 := by
  have hruns : runActs (some 0) dWit envZeroTotalWit =
      ((startActs ++ [Act.crawlTick ⟨5, 10, none⟩]) ++ [Act.crawlTick ⟨7, 0, none⟩]) ++
        afterCrawlActs dWit envZeroTotalWit
          ["https://example.com/a", "https://example.com/b"] := by
    show (startActs ++ [Act.crawlTick ⟨5, 10, none⟩, Act.crawlTick ⟨7, 0, none⟩]) ++
        afterCrawlActs dWit envZeroTotalWit
          ["https://example.com/a", "https://example.com/b"] = _
    simp [List.append_assoc]
  refine ⟨?_, ?_, rfl, rfl, by norm_num, rfl⟩
  · have h := execActs_mem_execTrace (startActs ++ [Act.crawlTick ⟨5, 10, none⟩])
      ([Act.crawlTick ⟨7, 0, none⟩] ++ afterCrawlActs dWit envZeroTotalWit
        ["https://example.com/a", "https://example.com/b"]) (initialModel ticks30)
    rw [hruns]
    simpa [List.append_assoc] using h
  · have h := execActs_mem_execTrace
      ((startActs ++ [Act.crawlTick ⟨5, 10, none⟩]) ++ [Act.crawlTick ⟨7, 0, none⟩])
      (afterCrawlActs dWit envZeroTotalWit
        ["https://example.com/a", "https://example.com/b"]) (initialModel ticks30)
    rw [hruns]
    exact h

/-- C4 (amended): a crawl progress signal (count, total) sets the crawl
stage progress to 100 times count over total when total is positive, and
sets it to 0 when total is zero (the previous value is not retained); the
absolute counts are stored verbatim. -/
theorem claim4_progress_formula (p : CrawlProgress) (s : AppModel)
    {st : PipelineStage} (hs : stageBy s "crawl" = some st) :
    progressOf (applyAct (.crawlTick p) s) "crawl" =
      some (if p.total > 0 then ((p.count : ℚ) / (p.total : ℚ)) * 100 else 0) ∧
    (stageBy (applyAct (.crawlTick p) s) "crawl").map
        (fun x => (x.itemsProcessed, x.totalItems)) =
      some (some p.count, some p.total) := by
  have hid : st.id = "crawl" := by simpa using List.find?_some hs
  have key : stageBy (applyAct (.crawlTick p) s) "crawl" =
      (stageBy s "crawl").map (fun x => if x.id = "crawl" then applyUpdate x
        { progress := some (if p.total > 0 then ((p.count : ℚ) / (p.total : ℚ)) * 100 else 0)
          itemsProcessed := some p.count
          totalItems := some p.total
          currentTask := some ("Processing " ++ p.currentSitemap.getD "sitemap" ++ "...") }
        else x) :=
    stageBy_updateStage s "crawl" "crawl" _
  refine ⟨?_, ?_⟩ <;> simp [progressOf, key, hs, hid, applyUpdate]

/-- Witness for C4: the formula evaluated on the concrete mid-run state of
the counterexample scenario. -/
theorem claim4_progress_formula_witness :
    progressOf (applyAct (.crawlTick ⟨7, 0, none⟩) zeroTotalS1) "crawl" =
      some (if (0 : Nat) > 0 then (((7 : Nat) : ℚ) / ((0 : Nat) : ℚ)) * 100 else 0) :=
  (claim4_progress_formula ⟨7, 0, none⟩ zeroTotalS1
    (Option.some_get (by decide)).symm).1

/-- Reduction of the act list of a run that passes validation. -/
theorem runActs_eq_main (cfg : AiConfig) (d : WizardSubmitData) (env : CollabEnv)
    (hsm : ¬ d.sitemapUrl = "") (hv : env.sitemapUrlValid = true) :
    runActs (some cfg) d env =
      startActs ++ env.crawlEvents.map Act.crawlTick ++
        (match env.crawlResult with
         | .error msg => [Act.catchErr msg]
         | .ok urls => afterCrawlActs d env urls) := by
  simp [runActs, hsm, hv]

/-- C6: on every cache-miss run whose fan-out succeeds and whose cache
write resolves, the actionplan stage's startTime is at least the endTime
of each of the competitor, technical and content stages in the final
state - actionplan never starts before all three have resolved.  (The
action-plan and summary outcomes are unconstrained: the join property
holds whether or not the later stages succeed.) -/
theorem claim6_actionplan_starts_after_join
    (cfg : AiConfig) (d : WizardSubmitData) (env : CollabEnv) (s0 : AppModel)
    (hsm : ¬ d.sitemapUrl = "") (hv : env.sitemapUrlValid = true)
    (urls : List String) (hcr : env.crawlResult = .ok urls) (hne : urls ≠ [])
    (hcg : env.cacheGet = .ok none)
    (sw : SitewideAnalysis) (an : SeoAnalysisResult) (srcs : List GroundingSource)
    (hf : env.fanout = .ok (sw, an, srcs)) (hcs : env.cacheSet = .ok ()) :
    ∃ t c1 c2 c3,
      startOf (handleSubmitRun (some cfg) d env s0) "actionplan" = some t ∧
      endOf (handleSubmitRun (some cfg) d env s0) "competitor" = some c1 ∧
      endOf (handleSubmitRun (some cfg) d env s0) "technical" = some c2 ∧
      endOf (handleSubmitRun (some cfg) d env s0) "content" = some c3 ∧
      c1 ≤ t ∧ c2 ≤ t ∧ c3 ≤ t := by
  have hlen : ¬ urls.length = 0 := by simpa using hne
  have hL : runActs (some cfg) d env =
      (startActs ++ env.crawlEvents.map Act.crawlTick ++
        [Act.stageDone "crawl",
         Act.logMsg ("Discovered " ++ toString urls.length ++ " URLs") .success
           (some "crawl"),
         Act.prDiscovered urls.length,
         Act.setPhase .analyzing, Act.setCrawl none,
         Act.logMsg "Checking for cached analysis..." .info none,
         Act.logMsg "No valid cache found, running full analysis..." .info none,
         Act.logMsg "Prioritizing URLs by SEO value..." .info (some "rank"),
         Act.stageRun "rank" "Scoring URL importance...",
         Act.stageDone "rank",
         Act.logMsg ("Ranked " ++ toString (env.rankFn urls).length ++
             " URLs, analyzing top " ++
             toString ((env.rankFn urls).take maxUrlsForAnalysis).length)
           .success (some "rank"),
         Act.prAnalyzed ((env.rankFn urls).take maxUrlsForAnalysis).length,
         Act.logMsg "Starting parallel AI analysis engines..." .ai none,
         Act.stageRun "competitor" "Analyzing competitor sitemaps...",
         Act.stageRun "technical" "Auditing technical health...",
         Act.stageRun "content" "Evaluating content quality..."] ++
        env.fanMsgs.flatMap fanMsgActs) ++
      [Act.stageDone "competitor", Act.stageDone "technical",
       Act.stageDone "content"] ++
      [Act.logMsg "Sitewide audit complete" .success (some "technical"),
       Act.logMsg "Content analysis complete" .success (some "content"),
       Act.prFanout sw an,
       Act.logMsg "Caching analysis for future use..." .info none,
       Act.logMsg "Generating implementation roadmap..." .ai (some "actionplan")] ++
      (Act.stageRun "actionplan" "Creating daily action items..." ::
        (env.planMsgs.flatMap planMsgActs ++ planTailActs d env sw an srcs)) := by
    rw [runActs_eq_main cfg d env hsm hv, hcr]
    simp [afterCrawlActs, hlen, hcg, cacheMissActs, hf, hcs, afterCacheWriteActs,
      List.append_assoc]
  obtain ⟨t, c1, c2, c3, h1, h2, h3, h4, h5, h6, h7⟩ :=
    join_core s0
      (startActs ++ env.crawlEvents.map Act.crawlTick ++
        [Act.stageDone "crawl",
         Act.logMsg ("Discovered " ++ toString urls.length ++ " URLs") .success
           (some "crawl"),
         Act.prDiscovered urls.length,
         Act.setPhase .analyzing, Act.setCrawl none,
         Act.logMsg "Checking for cached analysis..." .info none,
         Act.logMsg "No valid cache found, running full analysis..." .info none,
         Act.logMsg "Prioritizing URLs by SEO value..." .info (some "rank"),
         Act.stageRun "rank" "Scoring URL importance...",
         Act.stageDone "rank",
         Act.logMsg ("Ranked " ++ toString (env.rankFn urls).length ++
             " URLs, analyzing top " ++
             toString ((env.rankFn urls).take maxUrlsForAnalysis).length)
           .success (some "rank"),
         Act.prAnalyzed ((env.rankFn urls).take maxUrlsForAnalysis).length,
         Act.logMsg "Starting parallel AI analysis engines..." .ai none,
         Act.stageRun "competitor" "Analyzing competitor sitemaps...",
         Act.stageRun "technical" "Auditing technical health...",
         Act.stageRun "content" "Evaluating content quality..."] ++
        env.fanMsgs.flatMap fanMsgActs)
      [Act.logMsg "Sitewide audit complete" .success (some "technical"),
       Act.logMsg "Content analysis complete" .success (some "content"),
       Act.prFanout sw an,
       Act.logMsg "Caching analysis for future use..." .info none,
       Act.logMsg "Generating implementation roadmap..." .ai (some "actionplan")]
      (env.planMsgs.flatMap planMsgActs ++ planTailActs d env sw an srcs)
      "Creating daily action items..."
      (by
        apply ids_execActs_append
        apply ids_execActs_append
        exact ids_startActs s0 _)
      (by
        intro a ha
        simp only [List.mem_cons, List.not_mem_nil, or_false] at ha
        rcases ha with rfl | rfl | rfl | rfl | rfl <;> exact ⟨rfl, rfl, rfl⟩)
      (by
        intro a ha
        rcases List.mem_append.mp ha with hm | hm
        · have hp := progressAct_planMsgs a hm
          exact ⟨(progressAct_noTimes hp "actionplan").1,
            (progressAct_noTimes hp "competitor").2,
            (progressAct_noTimes hp "technical").2,
            (progressAct_noTimes hp "content").2⟩
        · exact planTailActs_no_time_writes d env sw an srcs a hm)
  refine ⟨t, c1, c2, c3, ?_, ?_, ?_, ?_, h5, h6, h7⟩ <;>
    rw [show handleSubmitRun (some cfg) d env s0 =
      execActs (runActs (some cfg) d env) s0 from rfl, hL]
  · exact h1
  · exact h2
  · exact h3
  · exact h4

/-- Witness for C6: the join inequality on the concrete all-successful
cache-miss run. -/
theorem claim6_actionplan_starts_after_join_witness :
    ∃ t c1 c2 c3,
      startOf (handleSubmitRun (some 0) dWit envMissWit (initialModel ticks30))
        "actionplan" = some t ∧
      endOf (handleSubmitRun (some 0) dWit envMissWit (initialModel ticks30))
        "competitor" = some c1 ∧
      endOf (handleSubmitRun (some 0) dWit envMissWit (initialModel ticks30))
        "technical" = some c2 ∧
      endOf (handleSubmitRun (some 0) dWit envMissWit (initialModel ticks30))
        "content" = some c3 ∧
      c1 ≤ t ∧ c2 ≤ t ∧ c3 ≤ t :=
  claim6_actionplan_starts_after_join 0 dWit envMissWit (initialModel ticks30)
    (by decide) rfl _ rfl (by decide) rfl 7 8 [1, 2] rfl rfl

/-- C3 counterexample: the claim states that a rejection of the cache set
operation does not fail the run and the run still proceeds through
actionplan and summary.  In this concrete run the fan-out succeeds, the
cache write rejects, and the run ends in the error state with the cache
error surfaced; actionplan and summary never leave pending and no history
record is produced. -/
theorem claim3_counterexample :
    (handleSubmitRun (some 0) dWit envCacheSetFailWit (initialModel ticks30)).appState
        = .error ∧
    (handleSubmitRun (some 0) dWit envCacheSetFailWit (initialModel ticks30)).errorMsg
        = some "cache backend unavailable" ∧
    statusOf (handleSubmitRun (some 0) dWit envCacheSetFailWit (initialModel ticks30))
        "actionplan" = some .pending ∧
    statusOf (handleSubmitRun (some 0) dWit envCacheSetFailWit (initialModel ticks30))
        "summary" = some .pending ∧
    (handleSubmitRun (some 0) dWit envCacheSetFailWit (initialModel ticks30)).history
        = [] := by decide

/-- C8 counterexample: the claim states every PartialResults field is set
at most once per run.  On this concrete cache-hit run the orchestrator
assigns urlsDiscovered twice: once after the crawl and again in the
cache-hit replacement write. -/
theorem claim8_counterexample :
    writeCount .urlsDiscovered
      (handleSubmitRun (some 0) dWit envHitWit (initialModel ticks30)).prWrites = 2 ∧
    (handleSubmitRun (some 0) dWit envHitWit (initialModel ticks30)).prWrites =
      [[.urlsDiscovered], [.urlsDiscovered, .sitewideAnalysis, .seoAnalysis],
       [.actionPlan], [.executiveSummary]] := by decide

/-- C3 (amended): a rejection of the cache collaborator's set operation
fails the run.  The cache write is awaited without a guard, so on every
cache-miss run whose fan-out succeeds but whose cache write rejects, the
run ends in the error state with the cache error surfaced, and neither
actionplan nor summary ever starts (both stay pending).  The run proceeds
through actionplan and summary only when the cache write resolves. -/
theorem claim3_cache_write_failure_fails_run
    (cfg : AiConfig) (d : WizardSubmitData) (env : CollabEnv) (s0 : AppModel)
    (hsm : ¬ d.sitemapUrl = "") (hv : env.sitemapUrlValid = true)
    (urls : List String) (hcr : env.crawlResult = .ok urls) (hne : urls ≠ [])
    (hcg : env.cacheGet = .ok none)
    (sw : SitewideAnalysis) (an : SeoAnalysisResult) (srcs : List GroundingSource)
    (hf : env.fanout = .ok (sw, an, srcs))
    (m : String) (hcs : env.cacheSet = .error m)
    (hflag : s0.isCancelling = false) :
    (handleSubmitRun (some cfg) d env s0).appState = .error ∧
    (handleSubmitRun (some cfg) d env s0).errorMsg = some m ∧
    statusOf (handleSubmitRun (some cfg) d env s0) "actionplan" = some .pending ∧
    statusOf (handleSubmitRun (some cfg) d env s0) "summary" = some .pending := by
  have hlen : ¬ urls.length = 0 := by simpa using hne
  have hL : runActs (some cfg) d env =
      startActs ++ (env.crawlEvents.map Act.crawlTick ++
        (Act.stageDone "crawl" ::
         Act.logMsg ("Discovered " ++ toString urls.length ++ " URLs") .success
           (some "crawl") ::
         Act.prDiscovered urls.length ::
         Act.setPhase .analyzing :: Act.setCrawl none ::
         Act.logMsg "Checking for cached analysis..." .info none ::
         Act.logMsg "No valid cache found, running full analysis..." .info none ::
         Act.logMsg "Prioritizing URLs by SEO value..." .info (some "rank") ::
         Act.stageRun "rank" "Scoring URL importance..." ::
         Act.stageDone "rank" ::
         Act.logMsg ("Ranked " ++ toString (env.rankFn urls).length ++
             " URLs, analyzing top " ++
             toString ((env.rankFn urls).take maxUrlsForAnalysis).length)
           .success (some "rank") ::
         Act.prAnalyzed ((env.rankFn urls).take maxUrlsForAnalysis).length ::
         Act.logMsg "Starting parallel AI analysis engines..." .ai none ::
         Act.stageRun "competitor" "Analyzing competitor sitemaps..." ::
         Act.stageRun "technical" "Auditing technical health..." ::
         Act.stageRun "content" "Evaluating content quality..." ::
         (env.fanMsgs.flatMap fanMsgActs ++
           [Act.stageDone "competitor", Act.stageDone "technical",
            Act.stageDone "content",
            Act.logMsg "Sitewide audit complete" .success (some "technical"),
            Act.logMsg "Content analysis complete" .success (some "content"),
            Act.prFanout sw an,
            Act.logMsg "Caching analysis for future use..." .info none,
            Act.catchErr m]))) := by
    rw [runActs_eq_main cfg d env hsm hv, hcr]
    simp [afterCrawlActs, hlen, hcg, cacheMissActs, hf, hcs, List.append_assoc]
  have habs : absOf (handleSubmitRun (some cfg) d env s0) =
      ⟨false, [("crawl", .complete), ("rank", .complete), ("competitor", .complete),
        ("technical", .complete), ("content", .complete), ("actionplan", .pending),
        ("summary", .pending)], .error, some m⟩ := by
    rw [show handleSubmitRun (some cfg) d env s0 =
        execActs (runActs (some cfg) d env) s0 from rfl, hL, absOf_execActs,
      absExec_append]
    rw [show absOf s0 = ⟨false, statuses s0, s0.appState, s0.errorMsg⟩ from by
      rw [absOf, hflag]]
    rw [show absExec startActs ⟨false, statuses s0, s0.appState, s0.errorMsg⟩ =
        ⟨false, [("crawl", .running), ("rank", .pending), ("competitor", .pending),
          ("technical", .pending), ("content", .pending), ("actionplan", .pending),
          ("summary", .pending)], .loading, none⟩ from rfl]
    rw [absExec_append, absExec_neutral absNeutral_crawlTicks]
    simp only [absExec_cons]
    rw [absExec_append, absExec_neutral absNeutral_fanMsgs]
    rfl
  refine ⟨congrArg Abs.app habs, congrArg Abs.err habs, ?_, ?_⟩ <;>
    rw [statusOf_eq_statuses,
      show statuses (handleSubmitRun (some cfg) d env s0) =
        [("crawl", .complete), ("rank", .complete), ("competitor", .complete),
         ("technical", .complete), ("content", .complete), ("actionplan", .pending),
         ("summary", .pending)] from congrArg Abs.sts habs] <;> rfl

/-- Witness for C3 (amended): the concrete cache-write-failure run. -/
theorem claim3_cache_write_failure_fails_run_witness :
    (handleSubmitRun (some 0) dWit envCacheSetFailWit (initialModel ticks30)).appState
        = .error ∧
    (handleSubmitRun (some 0) dWit envCacheSetFailWit (initialModel ticks30)).errorMsg
        = some "cache backend unavailable" ∧
    statusOf (handleSubmitRun (some 0) dWit envCacheSetFailWit (initialModel ticks30))
        "actionplan" = some .pending ∧
    statusOf (handleSubmitRun (some 0) dWit envCacheSetFailWit (initialModel ticks30))
        "summary" = some .pending :=
  claim3_cache_write_failure_fails_run 0 dWit envCacheSetFailWit
    (initialModel ticks30) (by decide) rfl _ rfl (by decide) rfl 7 8 [1, 2] rfl
    "cache backend unavailable" rfl rfl

/-- C5: on every run whose crawl succeeds with zero URLs, the run
terminates in the error state with the empty-result message, the crawl
stage itself is complete, and none of the six later stages ever leaves
pending at any point of the run. -/
theorem claim5_zero_urls_terminal_error
    (cfg : AiConfig) (d : WizardSubmitData) (env : CollabEnv) (s0 : AppModel)
    (hsm : ¬ d.sitemapUrl = "") (hv : env.sitemapUrlValid = true)
    (hcr : env.crawlResult = .ok ([] : List String))
    (hflag : s0.isCancelling = false)
    (hpend : ∀ p ∈ statuses s0, p.1 ≠ "crawl" → p.2 = .pending) :
    (handleSubmitRun (some cfg) d env s0).appState = .error ∧
    (handleSubmitRun (some cfg) d env s0).errorMsg = some emptyCrawlMsg ∧
    statusOf (handleSubmitRun (some cfg) d env s0) "crawl" = some .complete ∧
    ∀ s ∈ execTrace (runActs (some cfg) d env) s0,
      ∀ p ∈ statuses s, p.1 ≠ "crawl" → p.2 = .pending := by
  have hL : runActs (some cfg) d env =
      startActs ++ (env.crawlEvents.map Act.crawlTick ++
        [Act.stageDone "crawl",
         Act.logMsg ("Discovered " ++ toString (List.length ([] : List String)) ++
           " URLs") .success (some "crawl"),
         Act.prDiscovered (List.length ([] : List String)),
         Act.catchErr emptyCrawlMsg]) := by
    rw [runActs_eq_main cfg d env hsm hv, hcr]
    simp [afterCrawlActs, List.append_assoc]
  have habs : absOf (handleSubmitRun (some cfg) d env s0) =
      ⟨false, [("crawl", .complete), ("rank", .pending), ("competitor", .pending),
        ("technical", .pending), ("content", .pending), ("actionplan", .pending),
        ("summary", .pending)], .error, some emptyCrawlMsg⟩ := by
    rw [show handleSubmitRun (some cfg) d env s0 =
        execActs (runActs (some cfg) d env) s0 from rfl, hL, absOf_execActs,
      absExec_append]
    rw [show absOf s0 = ⟨false, statuses s0, s0.appState, s0.errorMsg⟩ from by
      rw [absOf, hflag]]
    rw [show absExec startActs ⟨false, statuses s0, s0.appState, s0.errorMsg⟩ =
        ⟨false, [("crawl", .running), ("rank", .pending), ("competitor", .pending),
          ("technical", .pending), ("content", .pending), ("actionplan", .pending),
          ("summary", .pending)], .loading, none⟩ from rfl]
    rw [absExec_append, absExec_neutral absNeutral_crawlTicks]
    rfl
  refine ⟨congrArg Abs.app habs, congrArg Abs.err habs, ?_, ?_⟩
  · rw [statusOf_eq_statuses,
      show statuses (handleSubmitRun (some cfg) d env s0) =
        [("crawl", .complete), ("rank", .pending), ("competitor", .pending),
         ("technical", .pending), ("content", .pending), ("actionplan", .pending),
         ("summary", .pending)] from congrArg Abs.sts habs]
    rfl
  · apply pred_execTrace (P := fun s => ∀ p ∈ statuses s, p.1 ≠ "crawl" → p.2 = .pending)
      ?_ s0 hpend
    intro a ha s hs
    refine sixPending_absStep hs ?_
    rw [hL] at ha
    rcases List.mem_append.mp ha with hm | hm
    · simp only [startActs, List.mem_cons, List.not_mem_nil, or_false] at hm
      rcases hm with rfl | rfl | rfl | rfl | rfl | rfl | rfl | rfl | rfl <;> rfl
    · rcases List.mem_append.mp hm with hm2 | hm2
      · exact progressAct_onlyCrawl (progressAct_crawlTicks a hm2)
      · simp only [List.mem_cons, List.not_mem_nil, or_false] at hm2
        rcases hm2 with rfl | rfl | rfl | rfl <;> rfl

/-- A run whose act list ends with the history push followed by the
results transition prepends one record (built at push time) and truncates
to the ten most recent; the persisted copy equals the new list. -/
theorem run_finalizes_history (L pre : List Act) (r : RecordSeed) (s0 : AppModel)
    (hdec : L = pre ++ [Act.pushHistory r, Act.setAppSt .results])
    (hpre : ∀ a ∈ pre, histNeutral a = true) :
    (execActs L s0).history =
      (mkRecord (nowOf (execActs pre s0)) r :: s0.history).take 10 ∧
    (execActs L s0).persisted = (execActs L s0).history := by
  subst hdec
  rw [execActs_append]
  have h1 := history_execActs hpre s0
  constructor
  · show (mkRecord (nowOf (execActs pre s0)) r ::
      (execActs pre s0).history).take 10 = _
    rw [h1.1]
  · rfl

/-- The shared history shape of a successful cache-hit run: the new
record carries the submitted url, empty sources, and the cached payloads,
and the list is the prepend-truncate of the previous one. -/
theorem hit_success_run_history
    (cfg : AiConfig) (d : WizardSubmitData) (env : CollabEnv) (s0 : AppModel)
    (hsm : ¬ d.sitemapUrl = "") (hv : env.sitemapUrlValid = true)
    (urls : List String) (hcr : env.crawlResult = .ok urls) (hne : urls ≠ [])
    (c : CachedAnalysis) (hcg : env.cacheGet = .ok (some c))
    (plan : List DailyActionPlan) (hp : env.hitPlan = .ok plan)
    (ex : ExecutiveSummary) (hx : env.hitSummary = .ok ex) :
    ∃ rec : HistoricalAnalysis,
      rec.sitemapUrl = d.url ∧ rec.sources = [] ∧
      rec.sitewideAnalysis = c.sitewide ∧ rec.analysis = c.seo ∧
      rec.actionPlan = plan ∧ rec.executiveSummary = ex ∧
      (handleSubmitRun (some cfg) d env s0).history = (rec :: s0.history).take 10 ∧
      (handleSubmitRun (some cfg) d env s0).persisted =
        (handleSubmitRun (some cfg) d env s0).history := by
  have hlen : ¬ urls.length = 0 := by simpa using hne
  have hL : runActs (some cfg) d env =
      (startActs ++ (env.crawlEvents.map Act.crawlTick ++
        ([Act.stageDone "crawl",
          Act.logMsg ("Discovered " ++ toString urls.length ++ " URLs") .success
            (some "crawl"),
          Act.prDiscovered urls.length,
          Act.setPhase .analyzing, Act.setCrawl none,
          Act.logMsg "Checking for cached analysis..." .info none,
          Act.logMsg "Cache hit! Using cached analysis..." .success none,
          Act.stageDone "rank", Act.stageDone "competitor",
          Act.stageDone "technical", Act.stageDone "content",
          Act.prCacheHit urls.length c.sitewide c.seo,
          Act.logMsg "Generating fresh action plan from cache..." .ai
            (some "actionplan"),
          Act.stageRun "actionplan" "Creating implementation roadmap..."] ++
         (env.hitPlanMsgs.flatMap planMsgActs ++
          [Act.stageDone "actionplan",
           Act.logMsg "Action plan generated" .success (some "actionplan"),
           Act.prPlan plan,
           Act.logMsg "Synthesizing executive summary..." .ai (some "summary"),
           Act.stageRun "summary" "Creating 80/20 analysis...",
           Act.stageDone "summary",
           Act.logMsg "Executive summary complete" .success (some "summary"),
           Act.prSummary ex])))) ++
      [Act.pushHistory
         { sitemapUrl := d.url
           competitorSitemaps := competitorUrlsOf d
           sitewideAnalysis := c.sitewide
           analysis := c.seo
           sources := []
           analysisType := d.analysisType
           location := d.targetLocation
           actionPlan := plan
           executiveSummary := ex },
       Act.setAppSt .results] := by
    rw [runActs_eq_main cfg d env hsm hv, hcr]
    simp [afterCrawlActs, hlen, hcg, cacheHitActs, hitTailActs, hp, hx,
      List.append_assoc]
  obtain ⟨hh, hps⟩ := run_finalizes_history (runActs (some cfg) d env) _ _ s0 hL
    (by
      intro a ha
      rcases List.mem_append.mp ha with h | h
      · simp only [startActs, List.mem_cons, List.not_mem_nil, or_false] at h
        rcases h with rfl | rfl | rfl | rfl | rfl | rfl | rfl | rfl | rfl <;> rfl
      rcases List.mem_append.mp h with h | h
      · exact progressAct_histNeutral (progressAct_crawlTicks a h)
      rcases List.mem_append.mp h with h | h
      · simp only [List.mem_cons, List.not_mem_nil, or_false] at h
        rcases h with rfl | rfl | rfl | rfl | rfl | rfl | rfl | rfl | rfl | rfl |
          rfl | rfl | rfl | rfl <;> rfl
      rcases List.mem_append.mp h with h | h
      · exact progressAct_histNeutral (progressAct_planMsgs a h)
      · simp only [List.mem_cons, List.not_mem_nil, or_false] at h
        rcases h with rfl | rfl | rfl | rfl | rfl | rfl | rfl | rfl <;> rfl)
  exact ⟨_, rfl, rfl, rfl, rfl, rfl, rfl, hh, hps⟩

/-- The shared history shape of a successful cache-miss run: the new
record carries the submitted url and the fan-out sources, and the list is
the prepend-truncate of the previous one. -/
theorem miss_success_run_history
    (cfg : AiConfig) (d : WizardSubmitData) (env : CollabEnv) (s0 : AppModel)
    (hsm : ¬ d.sitemapUrl = "") (hv : env.sitemapUrlValid = true)
    (urls : List String) (hcr : env.crawlResult = .ok urls) (hne : urls ≠ [])
    (hcg : env.cacheGet = .ok none)
    (sw : SitewideAnalysis) (an : SeoAnalysisResult) (srcs : List GroundingSource)
    (hf : env.fanout = .ok (sw, an, srcs)) (hcs : env.cacheSet = .ok ())
    (plan : List DailyActionPlan) (hp : env.plan = .ok plan)
    (ex : ExecutiveSummary) (hx : env.summary = .ok ex) :
    ∃ rec : HistoricalAnalysis,
      rec.sitemapUrl = d.url ∧ rec.sources = srcs ∧
      rec.sitewideAnalysis = sw ∧ rec.analysis = an ∧
      rec.actionPlan = plan ∧ rec.executiveSummary = ex ∧
      (handleSubmitRun (some cfg) d env s0).history = (rec :: s0.history).take 10 ∧
      (handleSubmitRun (some cfg) d env s0).persisted =
        (handleSubmitRun (some cfg) d env s0).history := by
  have hlen : ¬ urls.length = 0 := by simpa using hne
  have hL : runActs (some cfg) d env =
      (startActs ++ (env.crawlEvents.map Act.crawlTick ++
        ([Act.stageDone "crawl",
          Act.logMsg ("Discovered " ++ toString urls.length ++ " URLs") .success
            (some "crawl"),
          Act.prDiscovered urls.length,
          Act.setPhase .analyzing, Act.setCrawl none,
          Act.logMsg "Checking for cached analysis..." .info none,
          Act.logMsg "No valid cache found, running full analysis..." .info none,
          Act.logMsg "Prioritizing URLs by SEO value..." .info (some "rank"),
          Act.stageRun "rank" "Scoring URL importance...",
          Act.stageDone "rank",
          Act.logMsg ("Ranked " ++ toString (env.rankFn urls).length ++
              " URLs, analyzing top " ++
              toString ((env.rankFn urls).take maxUrlsForAnalysis).length)
            .success (some "rank"),
          Act.prAnalyzed ((env.rankFn urls).take maxUrlsForAnalysis).length,
          Act.logMsg "Starting parallel AI analysis engines..." .ai none,
          Act.stageRun "competitor" "Analyzing competitor sitemaps...",
          Act.stageRun "technical" "Auditing technical health...",
          Act.stageRun "content" "Evaluating content quality..."] ++
         (env.fanMsgs.flatMap fanMsgActs ++
          ([Act.stageDone "competitor", Act.stageDone "technical",
            Act.stageDone "content",
            Act.logMsg "Sitewide audit complete" .success (some "technical"),
            Act.logMsg "Content analysis complete" .success (some "content"),
            Act.prFanout sw an,
            Act.logMsg "Caching analysis for future use..." .info none,
            Act.logMsg "Generating implementation roadmap..." .ai (some "actionplan"),
            Act.stageRun "actionplan" "Creating daily action items..."] ++
           (env.planMsgs.flatMap planMsgActs ++
            [Act.stageDone "actionplan",
             Act.logMsg "Action plan generated successfully" .success
               (some "actionplan"),
             Act.prPlan plan,
             Act.logMsg "Synthesizing executive summary..." .ai (some "summary"),
             Act.stageRun "summary" "Generating 80/20 analysis...",
             Act.stageDone "summary",
             Act.logMsg "Executive summary complete" .success (some "summary"),
             Act.prSummary ex,
             Act.logMsg "Analysis complete! Building final report..." .success
               none])))))) ++
      [Act.pushHistory
         { sitemapUrl := d.url
           competitorSitemaps := competitorUrlsOf d
           sitewideAnalysis := sw
           analysis := an
           sources := srcs
           analysisType := d.analysisType
           location := d.targetLocation
           actionPlan := plan
           executiveSummary := ex },
       Act.setAppSt .results] := by
    rw [runActs_eq_main cfg d env hsm hv, hcr]
    simp [afterCrawlActs, hlen, hcg, cacheMissActs, hf, hcs, afterCacheWriteActs,
      planTailActs, hp, hx, List.append_assoc]
  obtain ⟨hh, hps⟩ := run_finalizes_history (runActs (some cfg) d env) _ _ s0 hL
    (by
      intro a ha
      rcases List.mem_append.mp ha with h | h
      · simp only [startActs, List.mem_cons, List.not_mem_nil, or_false] at h
        rcases h with rfl | rfl | rfl | rfl | rfl | rfl | rfl | rfl | rfl <;> rfl
      rcases List.mem_append.mp h with h | h
      · exact progressAct_histNeutral (progressAct_crawlTicks a h)
      rcases List.mem_append.mp h with h | h
      · simp only [List.mem_cons, List.not_mem_nil, or_false] at h
        rcases h with rfl | rfl | rfl | rfl | rfl | rfl | rfl | rfl | rfl | rfl |
          rfl | rfl | rfl | rfl | rfl | rfl <;> rfl
      rcases List.mem_append.mp h with h | h
      · exact progressAct_histNeutral (progressAct_fanMsgs a h)
      rcases List.mem_append.mp h with h | h
      · simp only [List.mem_cons, List.not_mem_nil, or_false] at h
        rcases h with rfl | rfl | rfl | rfl | rfl | rfl | rfl | rfl | rfl <;> rfl
      rcases List.mem_append.mp h with h | h
      · exact progressAct_histNeutral (progressAct_planMsgs a h)
      · simp only [List.mem_cons, List.not_mem_nil, or_false] at h
        rcases h with rfl | rfl | rfl | rfl | rfl | rfl | rfl | rfl | rfl <;> rfl)
  exact ⟨_, rfl, rfl, rfl, rfl, rfl, rfl, hh, hps⟩

/-- Witness for C5: the concrete zero-URL run. -/
theorem claim5_zero_urls_terminal_error_witness :
    (handleSubmitRun (some 0) dWit envZeroWit (initialModel ticks30)).appState
        = .error ∧
    (handleSubmitRun (some 0) dWit envZeroWit (initialModel ticks30)).errorMsg
        = some emptyCrawlMsg ∧
    statusOf (handleSubmitRun (some 0) dWit envZeroWit (initialModel ticks30))
        "crawl" = some .complete ∧
    ∀ s ∈ execTrace (runActs (some 0) dWit envZeroWit) (initialModel ticks30),
      ∀ p ∈ statuses s, p.1 ≠ "crawl" → p.2 = .pending :=
  claim5_zero_urls_terminal_error 0 dWit envZeroWit (initialModel ticks30)
    (by decide) rfl rfl rfl (by decide)

set_option maxRecDepth 100000 in
/-- C7: every successful run (cache-hit or cache-miss) prepends its new
record to the history list and truncates to the 10 most recent, and the
persisted copy equals the new list; in particular, after eleven successive
successful runs from a fresh mount the persisted list has length exactly
10 and holds the records of runs 10 down to 1 (the most recent first; run
0 has been evicted). -/
theorem claim7_history_bound :
    (∀ (cfg : AiConfig) (d : WizardSubmitData) (env : CollabEnv) (s0 : AppModel),
      ¬ d.sitemapUrl = "" → env.sitemapUrlValid = true →
      ∀ urls : List String, env.crawlResult = .ok urls → urls ≠ [] →
      ((∃ c plan ex, env.cacheGet = .ok (some c) ∧ env.hitPlan = .ok plan ∧
          env.hitSummary = .ok ex) ∨
       (∃ sw an srcs plan ex, env.cacheGet = .ok none ∧
          env.fanout = .ok (sw, an, srcs) ∧ env.cacheSet = .ok () ∧
          env.plan = .ok plan ∧ env.summary = .ok ex)) →
      ∃ rec : HistoricalAnalysis, rec.sitemapUrl = d.url ∧
        (handleSubmitRun (some cfg) d env s0).history =
          (rec :: s0.history).take 10 ∧
        (handleSubmitRun (some cfg) d env s0).persisted =
          (handleSubmitRun (some cfg) d env s0).history) ∧
    elevenRuns.history.length = 10 ∧
    elevenRuns.history.map (fun r => r.sitemapUrl) =
      ["https://example.com/10", "https://example.com/9", "https://example.com/8",
       "https://example.com/7", "https://example.com/6", "https://example.com/5",
       "https://example.com/4", "https://example.com/3", "https://example.com/2",
       "https://example.com/1"] ∧
    elevenRuns.persisted = elevenRuns.history := by
  refine ⟨?_, by decide⟩
  intro cfg d env s0 hsm hv urls hcr hne hpath
  rcases hpath with ⟨c, plan, ex, hcg, hp, hx⟩ |
    ⟨sw, an, srcs, plan, ex, hcg, hf, hcs, hp, hx⟩
  · obtain ⟨rec, h1, -, -, -, -, -, h7, h8⟩ :=
      hit_success_run_history cfg d env s0 hsm hv urls hcr hne c hcg plan hp ex hx
    exact ⟨rec, h1, h7, h8⟩
  · obtain ⟨rec, h1, -, -, -, -, -, h7, h8⟩ :=
      miss_success_run_history cfg d env s0 hsm hv urls hcr hne hcg sw an srcs
        hf hcs plan hp ex hx
    exact ⟨rec, h1, h7, h8⟩

/-- Witness for C7: the general part applied to the concrete cache-hit
run from a fresh mount. -/
theorem claim7_history_bound_witness :
    ∃ rec : HistoricalAnalysis, rec.sitemapUrl = dWit.url ∧
      (handleSubmitRun (some 0) dWit envHitWit (initialModel ticks30)).history =
        (rec :: (initialModel ticks30).history).take 10 ∧
      (handleSubmitRun (some 0) dWit envHitWit (initialModel ticks30)).persisted =
        (handleSubmitRun (some 0) dWit envHitWit (initialModel ticks30)).history :=
  claim7_history_bound.1 0 dWit envHitWit (initialModel ticks30) (by decide) rfl
    _ rfl (by decide) (.inl ⟨⟨41, 42⟩, [5], 6, rfl, rfl, rfl⟩)

/-- C10: every run completed via the cache-hit path produces a history
record whose grounding-sources field is the empty list, regardless of the
cached payloads (the cache stores only the sitewide and page-level
results, and the cache-hit record construction hard-codes sources: []). -/
theorem claim10_cache_hit_record_empty_sources
    (cfg : AiConfig) (d : WizardSubmitData) (env : CollabEnv) (s0 : AppModel)
    (hsm : ¬ d.sitemapUrl = "") (hv : env.sitemapUrlValid = true)
    (urls : List String) (hcr : env.crawlResult = .ok urls) (hne : urls ≠ [])
    (c : CachedAnalysis) (hcg : env.cacheGet = .ok (some c))
    (plan : List DailyActionPlan) (hp : env.hitPlan = .ok plan)
    (ex : ExecutiveSummary) (hx : env.hitSummary = .ok ex) :
    ∃ rec : HistoricalAnalysis,
      (handleSubmitRun (some cfg) d env s0).history.head? = some rec ∧
      rec.sources = [] := by
  obtain ⟨rec, -, h2, -, -, -, -, h7, -⟩ :=
    hit_success_run_history cfg d env s0 hsm hv urls hcr hne c hcg plan hp ex hx
  refine ⟨rec, ?_, h2⟩
  rw [h7]
  rfl

/-- Witness for C10: the concrete cache-hit run with nonempty cached
payloads. -/
theorem claim10_cache_hit_record_empty_sources_witness :
    ∃ rec : HistoricalAnalysis,
      (handleSubmitRun (some 0) dWit envHitWit
        (initialModel ticks30)).history.head? = some rec ∧
      rec.sources = [] :=
  claim10_cache_hit_record_empty_sources 0 dWit envHitWit (initialModel ticks30)
    (by decide) rfl _ rfl (by decide) ⟨41, 42⟩ rfl [5] rfl 6 rfl

theorem prNeutral_partialResults {a : Act} (h : prNeutral a = true)
    (s : AppModel) : (applyAct a s).partialResults = s.partialResults := by
  cases a <;>
    first
    | rfl
    | (simp only [applyAct]; split <;> rfl)
    | (simp [prNeutral] at h)

theorem progressAct_prNeutralB {a : Act} (h : progressAct a = true) :
    prNeutral a = true := by
  cases a <;> first | rfl | simp [progressAct] at h

theorem ghostWrites_progress {l : List Act}
    (h : ∀ a ∈ l, progressAct a = true) : ghostWrites l = [] := by
  induction l with
  | nil => rfl
  | cons a t ih =>
      have h1 := (progressAct_prNeutral (h a (List.mem_cons_self a t))).2.1
      rw [show a :: t = [a] ++ t from rfl, ghostWrites_append, h1,
        ih (fun b hb => h b (List.mem_cons_of_mem a hb))]
      rfl

theorem prField_empty (f : PRField) : prField f {} = none := by
  cases f <;> rfl

theorem runActs_classify (cfg : AiConfig) (d : WizardSubmitData)
    (env : CollabEnv) :
    ∀ a ∈ runActs (some cfg) d env,
      prNeutral a = true ∨ a = Act.resetAct ∨
      ∃ urls, env.crawlResult = Except.ok urls ∧ PRWriteSpec env urls a := by
  intro a ha
  by_cases hsm : d.sitemapUrl = ""
  · simp only [runActs, if_pos hsm, List.mem_cons, List.not_mem_nil, or_false] at ha
    rcases ha with rfl | rfl <;> exact Or.inl rfl
  · by_cases hv : env.sitemapUrlValid = true
    · rw [runActs_eq_main cfg d env hsm hv] at ha
      rcases List.mem_append.1 ha with h1 | h2
      · rcases List.mem_append.1 h1 with hs | ht
        · simp only [startActs, List.mem_cons, List.not_mem_nil, or_false] at hs
          rcases hs with rfl|rfl|rfl|rfl|rfl|rfl|rfl|rfl|rfl <;>
            first
            | exact Or.inl rfl
            | exact Or.inr (Or.inl rfl)
        · exact Or.inl (progressAct_prNeutralB (progressAct_crawlTicks a ht))
      · cases hcr : env.crawlResult with
        | error msg =>
            rw [hcr] at h2
            simp only [List.mem_cons, List.not_mem_nil, or_false] at h2
            subst h2
            exact Or.inl rfl
        | ok urls =>
            rw [hcr] at h2
            have lift : prNeutral a = true ∨ a = Act.resetAct ∨
                PRWriteSpec env urls a →
                prNeutral a = true ∨ a = Act.resetAct ∨
                ∃ u, (Except.ok urls : Except String (List String)) =
                  Except.ok u ∧ PRWriteSpec env u a := by
              rintro (h | h | h)
              · exact Or.inl h
              · exact Or.inr (Or.inl h)
              · exact Or.inr (Or.inr ⟨urls, rfl, h⟩)
            apply lift
            simp only [afterCrawlActs] at h2
            rcases List.mem_append.1 h2 with h3 | h4
            · simp only [List.mem_cons, List.not_mem_nil, or_false] at h3
              rcases h3 with rfl | rfl | rfl
              · exact Or.inl rfl
              · exact Or.inl rfl
              · exact Or.inr (Or.inr (Or.inl rfl))
            · by_cases hz : urls.length = 0
              · rw [if_pos hz] at h4
                simp only [List.mem_cons, List.not_mem_nil, or_false] at h4
                subst h4
                exact Or.inl rfl
              · rw [if_neg hz] at h4
                rcases List.mem_append.1 h4 with h5 | h6
                · simp only [List.mem_cons, List.not_mem_nil, or_false] at h5
                  rcases h5 with rfl | rfl | rfl <;> exact Or.inl rfl
                · cases hcg : env.cacheGet with
                  | error m =>
                      rw [hcg] at h6
                      simp only [List.mem_cons, List.not_mem_nil, or_false] at h6
                      subst h6
                      exact Or.inl rfl
                  | ok oc =>
                      rw [hcg] at h6
                      cases oc with
                      | some c =>
                          simp only [cacheHitActs] at h6
                          rcases List.mem_append.1 h6 with h7 | h8
                          · rcases List.mem_append.1 h7 with h9 | h10
                            · simp only [List.mem_cons, List.not_mem_nil,
                                or_false] at h9
                              rcases h9 with rfl|rfl|rfl|rfl|rfl|rfl|rfl|rfl
                              · exact Or.inl rfl
                              · exact Or.inl rfl
                              · exact Or.inl rfl
                              · exact Or.inl rfl
                              · exact Or.inl rfl
                              · exact Or.inr (Or.inr (Or.inr (Or.inl
                                  ⟨c, hcg, rfl⟩)))
                              · exact Or.inl rfl
                              · exact Or.inl rfl
                            · exact Or.inl (progressAct_prNeutralB
                                (progressAct_planMsgs a h10))
                          · simp only [hitTailActs] at h8
                            cases hp : env.hitPlan with
                            | error m2 =>
                                rw [hp] at h8
                                simp only [List.mem_cons, List.not_mem_nil,
                                  or_false] at h8
                                subst h8
                                exact Or.inl rfl
                            | ok plan =>
                                rw [hp] at h8
                                rcases List.mem_append.1 h8 with h11 | h12
                                · simp only [List.mem_cons, List.not_mem_nil,
                                    or_false] at h11
                                  rcases h11 with rfl|rfl|rfl|rfl|rfl
                                  · exact Or.inl rfl
                                  · exact Or.inl rfl
                                  · exact Or.inr (Or.inr (Or.inr (Or.inr
                                      (Or.inr (Or.inr (Or.inl ⟨plan, rfl,
                                        Or.inl ⟨c, hcg, hp⟩⟩))))))
                                  · exact Or.inl rfl
                                  · exact Or.inl rfl
                                · cases hx : env.hitSummary with
                                  | error m3 =>
                                      rw [hx] at h12
                                      simp only [List.mem_cons,
                                        List.not_mem_nil, or_false] at h12
                                      subst h12
                                      exact Or.inl rfl
                                  | ok ex =>
                                      rw [hx] at h12
                                      simp only [List.mem_cons,
                                        List.not_mem_nil, or_false] at h12
                                      rcases h12 with rfl|rfl|rfl|rfl|rfl
                                      · exact Or.inl rfl
                                      · exact Or.inl rfl
                                      · exact Or.inr (Or.inr (Or.inr (Or.inr
                                          (Or.inr (Or.inr (Or.inr ⟨ex, rfl,
                                            Or.inl ⟨c, hcg, hx⟩⟩))))))
                                      · exact Or.inl rfl
                                      · exact Or.inl rfl
                      | none =>
                          simp only [cacheMissActs] at h6
                          rcases List.mem_append.1 h6 with h7 | h8
                          · rcases List.mem_append.1 h7 with h9 | h10
                            · simp only [List.mem_cons, List.not_mem_nil,
                                or_false] at h9
                              rcases h9 with rfl|rfl|rfl|rfl|rfl|rfl|rfl|rfl|rfl|rfl
                              · exact Or.inl rfl
                              · exact Or.inl rfl
                              · exact Or.inl rfl
                              · exact Or.inl rfl
                              · exact Or.inl rfl
                              · exact Or.inr (Or.inr (Or.inr (Or.inr
                                  (Or.inl ⟨hcg, rfl⟩))))
                              · exact Or.inl rfl
                              · exact Or.inl rfl
                              · exact Or.inl rfl
                              · exact Or.inl rfl
                            · exact Or.inl (progressAct_prNeutralB
                                (progressAct_fanMsgs a h10))
                          · cases hf : env.fanout with
                            | error m2 =>
                                rw [hf] at h8
                                simp only [List.mem_cons, List.not_mem_nil,
                                  or_false] at h8
                                subst h8
                                exact Or.inl rfl
                            | ok trip =>
                                obtain ⟨sw, an, srcs⟩ := trip
                                rw [hf] at h8
                                rcases List.mem_append.1 h8 with h11 | h12
                                · simp only [List.mem_cons, List.not_mem_nil,
                                    or_false] at h11
                                  rcases h11 with rfl|rfl|rfl|rfl|rfl|rfl|rfl
                                  · exact Or.inl rfl
                                  · exact Or.inl rfl
                                  · exact Or.inl rfl
                                  · exact Or.inl rfl
                                  · exact Or.inl rfl
                                  · exact Or.inr (Or.inr (Or.inr (Or.inr
                                      (Or.inr (Or.inl
                                        ⟨sw, an, srcs, hcg, hf, rfl⟩)))))
                                  · exact Or.inl rfl
                                · cases hcs : env.cacheSet with
                                  | error m3 =>
                                      rw [hcs] at h12
                                      simp only [List.mem_cons,
                                        List.not_mem_nil, or_false] at h12
                                      subst h12
                                      exact Or.inl rfl
                                  | ok u =>
                                      rw [hcs] at h12
                                      simp only [afterCacheWriteActs] at h12
                                      rcases List.mem_append.1 h12 with h13 | h14
                                      · rcases List.mem_append.1 h13 with h15 | h16
                                        · simp only [List.mem_cons,
                                            List.not_mem_nil, or_false] at h15
                                          rcases h15 with rfl | rfl <;>
                                            exact Or.inl rfl
                                        · exact Or.inl (progressAct_prNeutralB
                                            (progressAct_planMsgs a h16))
                                      · simp only [planTailActs] at h14
                                        cases hp : env.plan with
                                        | error m4 =>
                                            rw [hp] at h14
                                            simp only [List.mem_cons,
                                              List.not_mem_nil, or_false] at h14
                                            subst h14
                                            exact Or.inl rfl
                                        | ok plan =>
                                            rw [hp] at h14
                                            rcases List.mem_append.1 h14 with
                                              h17 | h18
                                            · simp only [List.mem_cons,
                                                List.not_mem_nil, or_false] at h17
                                              rcases h17 with rfl|rfl|rfl|rfl|rfl
                                              · exact Or.inl rfl
                                              · exact Or.inl rfl
                                              · exact Or.inr (Or.inr (Or.inr
                                                  (Or.inr (Or.inr (Or.inr
                                                    (Or.inl ⟨plan, rfl,
                                                      Or.inr ⟨hcg, hp⟩⟩))))))
                                              · exact Or.inl rfl
                                              · exact Or.inl rfl
                                            · cases hx : env.summary with
                                              | error m5 =>
                                                  rw [hx] at h18
                                                  simp only [List.mem_cons,
                                                    List.not_mem_nil,
                                                    or_false] at h18
                                                  subst h18
                                                  exact Or.inl rfl
                                              | ok ex =>
                                                  rw [hx] at h18
                                                  simp only [List.mem_cons,
                                                    List.not_mem_nil,
                                                    or_false] at h18
                                                  rcases h18 with
                                                    rfl|rfl|rfl|rfl|rfl|rfl
                                                  · exact Or.inl rfl
                                                  · exact Or.inl rfl
                                                  · exact Or.inr (Or.inr (Or.inr
                                                      (Or.inr (Or.inr (Or.inr
                                                        (Or.inr ⟨ex, rfl, Or.inr
                                                          ⟨hcg, hx⟩⟩))))))
                                                  · exact Or.inl rfl
                                                  · exact Or.inl rfl
                                                  · exact Or.inl rfl
    · simp only [Bool.not_eq_true] at hv
      simp only [runActs, if_neg hsm, if_pos hv, List.mem_cons,
        List.not_mem_nil, or_false] at ha
      rcases ha with rfl | rfl <;> exact Or.inl rfl

theorem ghostWrites_runActs_bound (cfg : AiConfig) (d : WizardSubmitData)
    (env : CollabEnv) (f : PRField) :
    writeCount f (ghostWrites (runActs (some cfg) d env)) ≤
      if f = PRField.urlsDiscovered then 2 else 1 := by
  have hcraw : ghostWrites (env.crawlEvents.map Act.crawlTick) = [] :=
    ghostWrites_progress progressAct_crawlTicks
  have hhitm : ghostWrites (env.hitPlanMsgs.flatMap planMsgActs) = [] :=
    ghostWrites_progress progressAct_planMsgs
  have hplanm : ghostWrites (env.planMsgs.flatMap planMsgActs) = [] :=
    ghostWrites_progress progressAct_planMsgs
  have hfanm : ghostWrites (env.fanMsgs.flatMap fanMsgActs) = [] :=
    ghostWrites_progress progressAct_fanMsgs
  by_cases hsm : d.sitemapUrl = ""
  · have hg : ghostWrites (runActs (some cfg) d env) = [] := by
      simp [runActs, hsm, ghostWrites]
    rw [hg]; cases f <;> decide
  · by_cases hv : env.sitemapUrlValid = true
    · rw [runActs_eq_main cfg d env hsm hv]
      cases hcr : env.crawlResult with
      | error msg =>
          simp only [ghostWrites_append, hcraw, startActs, List.cons_append,
            List.nil_append, ghostWrites, List.append_nil, List.append_eq]
          cases f <;> decide
      | ok urls =>
          by_cases hz : urls.length = 0
          · simp only [ghostWrites_append, hcraw, afterCrawlActs, if_pos hz,
              startActs, List.cons_append, List.nil_append, ghostWrites,
              List.append_nil, List.append_eq]
            cases f <;> decide
          · cases hcg : env.cacheGet with
            | error m =>
                simp only [ghostWrites_append, hcraw, afterCrawlActs,
                  if_neg hz, hcg, startActs, List.cons_append, List.nil_append,
                  ghostWrites, List.append_nil, List.append_eq]
                cases f <;> decide
            | ok oc =>
                cases oc with
                | some c =>
                    cases hp : env.hitPlan with
                    | error m2 =>
                        simp only [ghostWrites_append, hcraw, hhitm,
                          afterCrawlActs, if_neg hz, hcg, cacheHitActs,
                          hitTailActs, hp, startActs, List.cons_append,
                          List.nil_append, ghostWrites, List.append_nil, List.append_eq]
                        cases f <;> decide
                    | ok plan =>
                        cases hx : env.hitSummary with
                        | error m3 =>
                            simp only [ghostWrites_append, hcraw, hhitm,
                              afterCrawlActs, if_neg hz, hcg, cacheHitActs,
                              hitTailActs, hp, hx, startActs, List.cons_append,
                              List.nil_append, ghostWrites, List.append_nil, List.append_eq]
                            cases f <;> decide
                        | ok ex =>
                            simp only [ghostWrites_append, hcraw, hhitm,
                              afterCrawlActs, if_neg hz, hcg, cacheHitActs,
                              hitTailActs, hp, hx, startActs, List.cons_append,
                              List.nil_append, ghostWrites, List.append_nil, List.append_eq]
                            cases f <;> decide
                | none =>
                    cases hf : env.fanout with
                    | error m2 =>
                        simp only [ghostWrites_append, hcraw, hfanm,
                          afterCrawlActs, if_neg hz, hcg, cacheMissActs, hf,
                          startActs, List.cons_append, List.nil_append,
                          ghostWrites, List.append_nil, List.append_eq]
                        cases f <;> decide
                    | ok trip =>
                        obtain ⟨sw, an, srcs⟩ := trip
                        cases hcs : env.cacheSet with
                        | error m3 =>
                            simp only [ghostWrites_append, hcraw, hfanm,
                              afterCrawlActs, if_neg hz, hcg, cacheMissActs,
                              hf, hcs, startActs, List.cons_append,
                              List.nil_append, ghostWrites, List.append_nil, List.append_eq]
                            cases f <;> decide
                        | ok u =>
                            cases hp : env.plan with
                            | error m4 =>
                                simp only [ghostWrites_append, hcraw, hfanm,
                                  hplanm, afterCrawlActs, if_neg hz, hcg,
                                  cacheMissActs, hf, hcs, afterCacheWriteActs,
                                  planTailActs, hp, startActs,
                                  List.cons_append, List.nil_append,
                                  ghostWrites, List.append_nil, List.append_eq]
                                cases f <;> decide
                            | ok plan =>
                                cases hx : env.summary with
                                | error m5 =>
                                    simp only [ghostWrites_append, hcraw,
                                      hfanm, hplanm, afterCrawlActs, if_neg hz,
                                      hcg, cacheMissActs, hf, hcs,
                                      afterCacheWriteActs, planTailActs, hp,
                                      hx, startActs, List.cons_append,
                                      List.nil_append, ghostWrites,
                                      List.append_nil, List.append_eq]
                                    cases f <;> decide
                                | ok ex =>
                                    simp only [ghostWrites_append, hcraw,
                                      hfanm, hplanm, afterCrawlActs, if_neg hz,
                                      hcg, cacheMissActs, hf, hcs,
                                      afterCacheWriteActs, planTailActs, hp,
                                      hx, startActs, List.cons_append,
                                      List.nil_append, ghostWrites,
                                      List.append_nil, List.append_eq]
                                    cases f <;> decide
    · simp only [Bool.not_eq_true] at hv
      have hg : ghostWrites (runActs (some cfg) d env) = [] := by
        simp [runActs, hsm, hv, ghostWrites]
      rw [hg]; cases f <;> decide

theorem prField_stable_run (cfg : AiConfig) (d : WizardSubmitData)
    (env : CollabEnv) (f : PRField) (v : PRVal)
    (hw : ∀ a ∈ runActs (some cfg) d env, ∀ s : AppModel,
      prField f (applyAct a s).partialResults = prField f s.partialResults ∨
      prField f (applyAct a s).partialResults = none ∨
      prField f (applyAct a s).partialResults = some v)
    (s0 : AppModel) (h0 : prField f s0.partialResults = none) :
    ∀ x ∈ execTrace (runActs (some cfg) d env) s0,
      prField f x.partialResults = none ∨
      prField f x.partialResults = some v := by
  refine pred_execTrace (P := fun s => prField f s.partialResults = none ∨
    prField f s.partialResults = some v) ?_ s0 (Or.inl h0)
  intro a ha s hs
  rcases hw a ha s with h | h | h
  · rw [h]; exact hs
  · exact Or.inl h
  · exact Or.inr h

/-- C8 (amended): the reset at run start clears every PartialResults
field; per run, every field except urlsDiscovered is assigned by at most
one setPartialResults call while urlsDiscovered is assigned at most twice
(the second time only by the cache-hit replacement write); and along the
whole run each field only ever moves between unset and one single value,
so no populated field ever changes to a different value within a run. -/
theorem claim8_partial_results_write_discipline :
    (∀ s : AppModel, (applyAct Act.resetAct s).partialResults = {}) ∧
    (∀ (cfg : AiConfig) (d : WizardSubmitData) (env : CollabEnv)
        (f : PRField),
      writeCount f (ghostWrites (runActs (some cfg) d env)) ≤
        if f = PRField.urlsDiscovered then 2 else 1) ∧
    (∀ (cfg : AiConfig) (d : WizardSubmitData) (env : CollabEnv)
        (s0 : AppModel), s0.partialResults = {} →
      ∀ f : PRField, ∃ v : PRVal,
        ∀ x ∈ execTrace (runActs (some cfg) d env) s0,
          prField f x.partialResults = none ∨
          prField f x.partialResults = some v) := by
  refine ⟨fun s => rfl, ghostWrites_runActs_bound, ?_⟩
  intro cfg d env s0 hpr f
  have h0 : prField f s0.partialResults = none := by
    rw [hpr]; exact prField_empty f
  cases f with
  | urlsDiscovered =>
      cases hcr : env.crawlResult with
      | error msg =>
          refine ⟨PRVal.nat 0, prField_stable_run cfg d env _ _ ?_ s0 h0⟩
          intro a ha s
          rcases runActs_classify cfg d env a ha with hn | rfl |
            ⟨urls, hcr2, hw2⟩
          · exact Or.inl (by rw [prNeutral_partialResults hn])
          · exact Or.inr (Or.inl (prField_empty _))
          · exact absurd hcr2 (by simp [hcr])
      | ok urls0 =>
          refine ⟨PRVal.nat urls0.length,
            prField_stable_run cfg d env _ _ ?_ s0 h0⟩
          intro a ha s
          rcases runActs_classify cfg d env a ha with hn | rfl |
            ⟨urls, hcr2, hw2⟩
          · exact Or.inl (by rw [prNeutral_partialResults hn])
          · exact Or.inr (Or.inl (prField_empty _))
          · rw [hcr] at hcr2
            simp only [Except.ok.injEq] at hcr2
            subst hcr2
            rcases hw2 with rfl | ⟨c, hc1, rfl⟩ | ⟨hc1, rfl⟩ |
              ⟨sw1, an1, srcs1, hc1, hf1, rfl⟩ | ⟨p1, rfl, hcond⟩ |
              ⟨e1, rfl, hcond⟩
            · exact Or.inr (Or.inr rfl)
            · exact Or.inr (Or.inr rfl)
            · exact Or.inl rfl
            · exact Or.inl rfl
            · exact Or.inl rfl
            · exact Or.inl rfl
  | urlsAnalyzed =>
      cases hcr : env.crawlResult with
      | error msg =>
          refine ⟨PRVal.nat 0, prField_stable_run cfg d env _ _ ?_ s0 h0⟩
          intro a ha s
          rcases runActs_classify cfg d env a ha with hn | rfl |
            ⟨urls, hcr2, hw2⟩
          · exact Or.inl (by rw [prNeutral_partialResults hn])
          · exact Or.inr (Or.inl (prField_empty _))
          · exact absurd hcr2 (by simp [hcr])
      | ok urls0 =>
          refine ⟨PRVal.nat ((env.rankFn urls0).take maxUrlsForAnalysis).length,
            prField_stable_run cfg d env _ _ ?_ s0 h0⟩
          intro a ha s
          rcases runActs_classify cfg d env a ha with hn | rfl |
            ⟨urls, hcr2, hw2⟩
          · exact Or.inl (by rw [prNeutral_partialResults hn])
          · exact Or.inr (Or.inl (prField_empty _))
          · rw [hcr] at hcr2
            simp only [Except.ok.injEq] at hcr2
            subst hcr2
            rcases hw2 with rfl | ⟨c, hc1, rfl⟩ | ⟨hc1, rfl⟩ |
              ⟨sw1, an1, srcs1, hc1, hf1, rfl⟩ | ⟨p1, rfl, hcond⟩ |
              ⟨e1, rfl, hcond⟩
            · exact Or.inl rfl
            · exact Or.inr (Or.inl rfl)
            · exact Or.inr (Or.inr rfl)
            · exact Or.inl rfl
            · exact Or.inl rfl
            · exact Or.inl rfl
  | sitewideAnalysis =>
      cases hcg : env.cacheGet with
      | error m =>
          refine ⟨PRVal.nat 0, prField_stable_run cfg d env _ _ ?_ s0 h0⟩
          intro a ha s
          rcases runActs_classify cfg d env a ha with hn | rfl |
            ⟨urls, hcr2, hw2⟩
          · exact Or.inl (by rw [prNeutral_partialResults hn])
          · exact Or.inr (Or.inl (prField_empty _))
          · rcases hw2 with rfl | ⟨c, hc1, rfl⟩ | ⟨hc1, rfl⟩ |
              ⟨sw1, an1, srcs1, hc1, hf1, rfl⟩ | ⟨p1, rfl, hcond⟩ |
              ⟨e1, rfl, hcond⟩
            · exact Or.inl rfl
            · exact absurd hc1 (by simp [hcg])
            · exact Or.inl rfl
            · exact absurd hc1 (by simp [hcg])
            · exact Or.inl rfl
            · exact Or.inl rfl
      | ok oc =>
          cases oc with
          | some c0 =>
              refine ⟨PRVal.nat c0.sitewide,
                prField_stable_run cfg d env _ _ ?_ s0 h0⟩
              intro a ha s
              rcases runActs_classify cfg d env a ha with hn | rfl |
                ⟨urls, hcr2, hw2⟩
              · exact Or.inl (by rw [prNeutral_partialResults hn])
              · exact Or.inr (Or.inl (prField_empty _))
              · rcases hw2 with rfl | ⟨c, hc1, rfl⟩ | ⟨hc1, rfl⟩ |
                  ⟨sw1, an1, srcs1, hc1, hf1, rfl⟩ | ⟨p1, rfl, hcond⟩ |
                  ⟨e1, rfl, hcond⟩
                · exact Or.inl rfl
                · rw [hcg] at hc1
                  simp only [Except.ok.injEq, Option.some.injEq] at hc1
                  subst hc1
                  exact Or.inr (Or.inr rfl)
                · exact absurd hc1 (by simp [hcg])
                · exact absurd hc1 (by simp [hcg])
                · exact Or.inl rfl
                · exact Or.inl rfl
          | none =>
              cases hf : env.fanout with
              | error m2 =>
                  refine ⟨PRVal.nat 0, prField_stable_run cfg d env _ _ ?_ s0 h0⟩
                  intro a ha s
                  rcases runActs_classify cfg d env a ha with hn | rfl |
                    ⟨urls, hcr2, hw2⟩
                  · exact Or.inl (by rw [prNeutral_partialResults hn])
                  · exact Or.inr (Or.inl (prField_empty _))
                  · rcases hw2 with rfl | ⟨c, hc1, rfl⟩ | ⟨hc1, rfl⟩ |
                      ⟨sw1, an1, srcs1, hc1, hf1, rfl⟩ | ⟨p1, rfl, hcond⟩ |
                      ⟨e1, rfl, hcond⟩
                    · exact Or.inl rfl
                    · exact absurd hc1 (by simp [hcg])
                    · exact Or.inl rfl
                    · exact absurd hf1 (by simp [hf])
                    · exact Or.inl rfl
                    · exact Or.inl rfl
              | ok trip =>
                  obtain ⟨sw0, an0, srcs0⟩ := trip
                  refine ⟨PRVal.nat sw0, prField_stable_run cfg d env _ _ ?_ s0 h0⟩
                  intro a ha s
                  rcases runActs_classify cfg d env a ha with hn | rfl |
                    ⟨urls, hcr2, hw2⟩
                  · exact Or.inl (by rw [prNeutral_partialResults hn])
                  · exact Or.inr (Or.inl (prField_empty _))
                  · rcases hw2 with rfl | ⟨c, hc1, rfl⟩ | ⟨hc1, rfl⟩ |
                      ⟨sw1, an1, srcs1, hc1, hf1, rfl⟩ | ⟨p1, rfl, hcond⟩ |
                      ⟨e1, rfl, hcond⟩
                    · exact Or.inl rfl
                    · exact absurd hc1 (by simp [hcg])
                    · exact Or.inl rfl
                    · rw [hf] at hf1
                      simp only [Except.ok.injEq, Prod.mk.injEq] at hf1
                      obtain ⟨h1, h2, h3⟩ := hf1
                      subst h1
                      exact Or.inr (Or.inr rfl)
                    · exact Or.inl rfl
                    · exact Or.inl rfl
  | seoAnalysis =>
      cases hcg : env.cacheGet with
      | error m =>
          refine ⟨PRVal.nat 0, prField_stable_run cfg d env _ _ ?_ s0 h0⟩
          intro a ha s
          rcases runActs_classify cfg d env a ha with hn | rfl |
            ⟨urls, hcr2, hw2⟩
          · exact Or.inl (by rw [prNeutral_partialResults hn])
          · exact Or.inr (Or.inl (prField_empty _))
          · rcases hw2 with rfl | ⟨c, hc1, rfl⟩ | ⟨hc1, rfl⟩ |
              ⟨sw1, an1, srcs1, hc1, hf1, rfl⟩ | ⟨p1, rfl, hcond⟩ |
              ⟨e1, rfl, hcond⟩
            · exact Or.inl rfl
            · exact absurd hc1 (by simp [hcg])
            · exact Or.inl rfl
            · exact absurd hc1 (by simp [hcg])
            · exact Or.inl rfl
            · exact Or.inl rfl
      | ok oc =>
          cases oc with
          | some c0 =>
              refine ⟨PRVal.nat c0.seo,
                prField_stable_run cfg d env _ _ ?_ s0 h0⟩
              intro a ha s
              rcases runActs_classify cfg d env a ha with hn | rfl |
                ⟨urls, hcr2, hw2⟩
              · exact Or.inl (by rw [prNeutral_partialResults hn])
              · exact Or.inr (Or.inl (prField_empty _))
              · rcases hw2 with rfl | ⟨c, hc1, rfl⟩ | ⟨hc1, rfl⟩ |
                  ⟨sw1, an1, srcs1, hc1, hf1, rfl⟩ | ⟨p1, rfl, hcond⟩ |
                  ⟨e1, rfl, hcond⟩
                · exact Or.inl rfl
                · rw [hcg] at hc1
                  simp only [Except.ok.injEq, Option.some.injEq] at hc1
                  subst hc1
                  exact Or.inr (Or.inr rfl)
                · exact absurd hc1 (by simp [hcg])
                · exact absurd hc1 (by simp [hcg])
                · exact Or.inl rfl
                · exact Or.inl rfl
          | none =>
              cases hf : env.fanout with
              | error m2 =>
                  refine ⟨PRVal.nat 0, prField_stable_run cfg d env _ _ ?_ s0 h0⟩
                  intro a ha s
                  rcases runActs_classify cfg d env a ha with hn | rfl |
                    ⟨urls, hcr2, hw2⟩
                  · exact Or.inl (by rw [prNeutral_partialResults hn])
                  · exact Or.inr (Or.inl (prField_empty _))
                  · rcases hw2 with rfl | ⟨c, hc1, rfl⟩ | ⟨hc1, rfl⟩ |
                      ⟨sw1, an1, srcs1, hc1, hf1, rfl⟩ | ⟨p1, rfl, hcond⟩ |
                      ⟨e1, rfl, hcond⟩
                    · exact Or.inl rfl
                    · exact absurd hc1 (by simp [hcg])
                    · exact Or.inl rfl
                    · exact absurd hf1 (by simp [hf])
                    · exact Or.inl rfl
                    · exact Or.inl rfl
              | ok trip =>
                  obtain ⟨sw0, an0, srcs0⟩ := trip
                  refine ⟨PRVal.nat an0, prField_stable_run cfg d env _ _ ?_ s0 h0⟩
                  intro a ha s
                  rcases runActs_classify cfg d env a ha with hn | rfl |
                    ⟨urls, hcr2, hw2⟩
                  · exact Or.inl (by rw [prNeutral_partialResults hn])
                  · exact Or.inr (Or.inl (prField_empty _))
                  · rcases hw2 with rfl | ⟨c, hc1, rfl⟩ | ⟨hc1, rfl⟩ |
                      ⟨sw1, an1, srcs1, hc1, hf1, rfl⟩ | ⟨p1, rfl, hcond⟩ |
                      ⟨e1, rfl, hcond⟩
                    · exact Or.inl rfl
                    · exact absurd hc1 (by simp [hcg])
                    · exact Or.inl rfl
                    · rw [hf] at hf1
                      simp only [Except.ok.injEq, Prod.mk.injEq] at hf1
                      obtain ⟨h1, h2, h3⟩ := hf1
                      subst h2
                      exact Or.inr (Or.inr rfl)
                    · exact Or.inl rfl
                    · exact Or.inl rfl
  | actionPlan =>
      cases hcg : env.cacheGet with
      | error m =>
          refine ⟨PRVal.plan [], prField_stable_run cfg d env _ _ ?_ s0 h0⟩
          intro a ha s
          rcases runActs_classify cfg d env a ha with hn | rfl |
            ⟨urls, hcr2, hw2⟩
          · exact Or.inl (by rw [prNeutral_partialResults hn])
          · exact Or.inr (Or.inl (prField_empty _))
          · rcases hw2 with rfl | ⟨c, hc1, rfl⟩ | ⟨hc1, rfl⟩ |
              ⟨sw1, an1, srcs1, hc1, hf1, rfl⟩ | ⟨p1, rfl, hcond⟩ |
              ⟨e1, rfl, hcond⟩
            · exact Or.inl rfl
            · exact Or.inr (Or.inl rfl)
            · exact Or.inl rfl
            · exact Or.inl rfl
            · rcases hcond with ⟨c, hc1, hp1⟩ | ⟨hc1, hp1⟩ <;>
                exact absurd hc1 (by simp [hcg])
            · exact Or.inl rfl
      | ok oc =>
          cases oc with
          | some c0 =>
              cases hp : env.hitPlan with
              | error m2 =>
                  refine ⟨PRVal.plan [], prField_stable_run cfg d env _ _ ?_ s0 h0⟩
                  intro a ha s
                  rcases runActs_classify cfg d env a ha with hn | rfl |
                    ⟨urls, hcr2, hw2⟩
                  · exact Or.inl (by rw [prNeutral_partialResults hn])
                  · exact Or.inr (Or.inl (prField_empty _))
                  · rcases hw2 with rfl | ⟨c, hc1, rfl⟩ | ⟨hc1, rfl⟩ |
                      ⟨sw1, an1, srcs1, hc1, hf1, rfl⟩ | ⟨p1, rfl, hcond⟩ |
                      ⟨e1, rfl, hcond⟩
                    · exact Or.inl rfl
                    · exact Or.inr (Or.inl rfl)
                    · exact Or.inl rfl
                    · exact Or.inl rfl
                    · rcases hcond with ⟨c, hc1, hp1⟩ | ⟨hc1, hp1⟩
                      · exact absurd hp1 (by simp [hp])
                      · exact absurd hc1 (by simp [hcg])
                    · exact Or.inl rfl
              | ok plan0 =>
                  refine ⟨PRVal.plan plan0,
                    prField_stable_run cfg d env _ _ ?_ s0 h0⟩
                  intro a ha s
                  rcases runActs_classify cfg d env a ha with hn | rfl |
                    ⟨urls, hcr2, hw2⟩
                  · exact Or.inl (by rw [prNeutral_partialResults hn])
                  · exact Or.inr (Or.inl (prField_empty _))
                  · rcases hw2 with rfl | ⟨c, hc1, rfl⟩ | ⟨hc1, rfl⟩ |
                      ⟨sw1, an1, srcs1, hc1, hf1, rfl⟩ | ⟨p1, rfl, hcond⟩ |
                      ⟨e1, rfl, hcond⟩
                    · exact Or.inl rfl
                    · exact Or.inr (Or.inl rfl)
                    · exact Or.inl rfl
                    · exact Or.inl rfl
                    · rcases hcond with ⟨c, hc1, hp1⟩ | ⟨hc1, hp1⟩
                      · rw [hp] at hp1
                        simp only [Except.ok.injEq] at hp1
                        subst hp1
                        exact Or.inr (Or.inr rfl)
                      · exact absurd hc1 (by simp [hcg])
                    · exact Or.inl rfl
          | none =>
              cases hpm : env.plan with
              | error m2 =>
                  refine ⟨PRVal.plan [], prField_stable_run cfg d env _ _ ?_ s0 h0⟩
                  intro a ha s
                  rcases runActs_classify cfg d env a ha with hn | rfl |
                    ⟨urls, hcr2, hw2⟩
                  · exact Or.inl (by rw [prNeutral_partialResults hn])
                  · exact Or.inr (Or.inl (prField_empty _))
                  · rcases hw2 with rfl | ⟨c, hc1, rfl⟩ | ⟨hc1, rfl⟩ |
                      ⟨sw1, an1, srcs1, hc1, hf1, rfl⟩ | ⟨p1, rfl, hcond⟩ |
                      ⟨e1, rfl, hcond⟩
                    · exact Or.inl rfl
                    · exact Or.inr (Or.inl rfl)
                    · exact Or.inl rfl
                    · exact Or.inl rfl
                    · rcases hcond with ⟨c, hc1, hp1⟩ | ⟨hc1, hp1⟩
                      · exact absurd hc1 (by simp [hcg])
                      · exact absurd hp1 (by simp [hpm])
                    · exact Or.inl rfl
              | ok plan0 =>
                  refine ⟨PRVal.plan plan0,
                    prField_stable_run cfg d env _ _ ?_ s0 h0⟩
                  intro a ha s
                  rcases runActs_classify cfg d env a ha with hn | rfl |
                    ⟨urls, hcr2, hw2⟩
                  · exact Or.inl (by rw [prNeutral_partialResults hn])
                  · exact Or.inr (Or.inl (prField_empty _))
                  · rcases hw2 with rfl | ⟨c, hc1, rfl⟩ | ⟨hc1, rfl⟩ |
                      ⟨sw1, an1, srcs1, hc1, hf1, rfl⟩ | ⟨p1, rfl, hcond⟩ |
                      ⟨e1, rfl, hcond⟩
                    · exact Or.inl rfl
                    · exact Or.inr (Or.inl rfl)
                    · exact Or.inl rfl
                    · exact Or.inl rfl
                    · rcases hcond with ⟨c, hc1, hp1⟩ | ⟨hc1, hp1⟩
                      · exact absurd hc1 (by simp [hcg])
                      · rw [hpm] at hp1
                        simp only [Except.ok.injEq] at hp1
                        subst hp1
                        exact Or.inr (Or.inr rfl)
                    · exact Or.inl rfl
  | executiveSummary =>
      cases hcg : env.cacheGet with
      | error m =>
          refine ⟨PRVal.nat 0, prField_stable_run cfg d env _ _ ?_ s0 h0⟩
          intro a ha s
          rcases runActs_classify cfg d env a ha with hn | rfl |
            ⟨urls, hcr2, hw2⟩
          · exact Or.inl (by rw [prNeutral_partialResults hn])
          · exact Or.inr (Or.inl (prField_empty _))
          · rcases hw2 with rfl | ⟨c, hc1, rfl⟩ | ⟨hc1, rfl⟩ |
              ⟨sw1, an1, srcs1, hc1, hf1, rfl⟩ | ⟨p1, rfl, hcond⟩ |
              ⟨e1, rfl, hcond⟩
            · exact Or.inl rfl
            · exact Or.inr (Or.inl rfl)
            · exact Or.inl rfl
            · exact Or.inl rfl
            · exact Or.inl rfl
            · rcases hcond with ⟨c, hc1, hx1⟩ | ⟨hc1, hx1⟩ <;>
                exact absurd hc1 (by simp [hcg])
      | ok oc =>
          cases oc with
          | some c0 =>
              cases hx : env.hitSummary with
              | error m2 =>
                  refine ⟨PRVal.nat 0, prField_stable_run cfg d env _ _ ?_ s0 h0⟩
                  intro a ha s
                  rcases runActs_classify cfg d env a ha with hn | rfl |
                    ⟨urls, hcr2, hw2⟩
                  · exact Or.inl (by rw [prNeutral_partialResults hn])
                  · exact Or.inr (Or.inl (prField_empty _))
                  · rcases hw2 with rfl | ⟨c, hc1, rfl⟩ | ⟨hc1, rfl⟩ |
                      ⟨sw1, an1, srcs1, hc1, hf1, rfl⟩ | ⟨p1, rfl, hcond⟩ |
                      ⟨e1, rfl, hcond⟩
                    · exact Or.inl rfl
                    · exact Or.inr (Or.inl rfl)
                    · exact Or.inl rfl
                    · exact Or.inl rfl
                    · exact Or.inl rfl
                    · rcases hcond with ⟨c, hc1, hx1⟩ | ⟨hc1, hx1⟩
                      · exact absurd hx1 (by simp [hx])
                      · exact absurd hc1 (by simp [hcg])
              | ok ex0 =>
                  refine ⟨PRVal.nat ex0, prField_stable_run cfg d env _ _ ?_ s0 h0⟩
                  intro a ha s
                  rcases runActs_classify cfg d env a ha with hn | rfl |
                    ⟨urls, hcr2, hw2⟩
                  · exact Or.inl (by rw [prNeutral_partialResults hn])
                  · exact Or.inr (Or.inl (prField_empty _))
                  · rcases hw2 with rfl | ⟨c, hc1, rfl⟩ | ⟨hc1, rfl⟩ |
                      ⟨sw1, an1, srcs1, hc1, hf1, rfl⟩ | ⟨p1, rfl, hcond⟩ |
                      ⟨e1, rfl, hcond⟩
                    · exact Or.inl rfl
                    · exact Or.inr (Or.inl rfl)
                    · exact Or.inl rfl
                    · exact Or.inl rfl
                    · exact Or.inl rfl
                    · rcases hcond with ⟨c, hc1, hx1⟩ | ⟨hc1, hx1⟩
                      · rw [hx] at hx1
                        simp only [Except.ok.injEq] at hx1
                        subst hx1
                        exact Or.inr (Or.inr rfl)
                      · exact absurd hc1 (by simp [hcg])
          | none =>
              cases hxm : env.summary with
              | error m2 =>
                  refine ⟨PRVal.nat 0, prField_stable_run cfg d env _ _ ?_ s0 h0⟩
                  intro a ha s
                  rcases runActs_classify cfg d env a ha with hn | rfl |
                    ⟨urls, hcr2, hw2⟩
                  · exact Or.inl (by rw [prNeutral_partialResults hn])
                  · exact Or.inr (Or.inl (prField_empty _))
                  · rcases hw2 with rfl | ⟨c, hc1, rfl⟩ | ⟨hc1, rfl⟩ |
                      ⟨sw1, an1, srcs1, hc1, hf1, rfl⟩ | ⟨p1, rfl, hcond⟩ |
                      ⟨e1, rfl, hcond⟩
                    · exact Or.inl rfl
                    · exact Or.inr (Or.inl rfl)
                    · exact Or.inl rfl
                    · exact Or.inl rfl
                    · exact Or.inl rfl
                    · rcases hcond with ⟨c, hc1, hx1⟩ | ⟨hc1, hx1⟩
                      · exact absurd hc1 (by simp [hcg])
                      · exact absurd hx1 (by simp [hxm])
              | ok ex0 =>
                  refine ⟨PRVal.nat ex0, prField_stable_run cfg d env _ _ ?_ s0 h0⟩
                  intro a ha s
                  rcases runActs_classify cfg d env a ha with hn | rfl |
                    ⟨urls, hcr2, hw2⟩
                  · exact Or.inl (by rw [prNeutral_partialResults hn])
                  · exact Or.inr (Or.inl (prField_empty _))
                  · rcases hw2 with rfl | ⟨c, hc1, rfl⟩ | ⟨hc1, rfl⟩ |
                      ⟨sw1, an1, srcs1, hc1, hf1, rfl⟩ | ⟨p1, rfl, hcond⟩ |
                      ⟨e1, rfl, hcond⟩
                    · exact Or.inl rfl
                    · exact Or.inr (Or.inl rfl)
                    · exact Or.inl rfl
                    · exact Or.inl rfl
                    · exact Or.inl rfl
                    · rcases hcond with ⟨c, hc1, hx1⟩ | ⟨hc1, hx1⟩
                      · exact absurd hc1 (by simp [hcg])
                      · rw [hxm] at hx1
                        simp only [Except.ok.injEq] at hx1
                        subst hx1
                        exact Or.inr (Or.inr rfl)

/-- Witness for C8: the write-count bound and per-field value stability
applied to the concrete cache-hit run from a fresh mount. -/
theorem claim8_partial_results_write_discipline_witness :
    ∃ v : PRVal,
      ∀ x ∈ execTrace (runActs (some 0) dWit envHitWit)
          (initialModel ticks30),
        prField PRField.urlsDiscovered x.partialResults = none ∨
        prField PRField.urlsDiscovered x.partialResults = some v :=
  claim8_partial_results_write_discipline.2.2 0 dWit envHitWit
    (initialModel ticks30) rfl PRField.urlsDiscovered

end SeoOrchestrator
